import Mathlib

/-!
# Explore-review webhook handler (pkg/webhook/explorer/http.go)

A shallow embedding of `Webhook.ServeHTTP`, `Webhook.writeResponse` and
`Webhook.writeExploreResponse`.  Every call the handler makes on one of its
collaborators (body stream, deserializer, decision function, JSON encoder,
logger) is recorded as an `Event`, so a run is a final stream state, a trace
and an outcome.
-/

namespace Explorer

/-! ## Data model -/

/-- Modelled from the spec: the `RequestStatus` type declaration is not part of
the source file; the spec gives it as the pair (code: integer, message: string). -/
structure RequestStatus where
  code : Int
  message : String
deriving DecidableEq, Repr

/-- The kind descriptor of a request, an object on the wire: the group, version
and kind of `metav1.GroupVersionKind`. -/
structure GroupVersionKind where
  group : String
  version : String
  kind : String
deriving DecidableEq, Repr

/-- Modelled from the spec: the `ExploreRequest` type declaration is not part of
the source file; the spec gives it a UID, a kind descriptor (an object) and
domain fields that the handler never inspects (kept here as raw key/value
pairs). -/
structure ExploreRequest where
  uid : String
  kind : GroupVersionKind
  fields : List (String × String)
deriving DecidableEq, Repr

/-- Modelled from the spec: the `ExploreResponse` type declaration is not part of
the source file; the spec gives it a UID, a success flag, an optional status
object (`status?`, a nilable pointer on the Go side) and domain fields that the
handler never inspects. -/
structure ExploreResponse where
  uid : String
  successful : Bool
  status : Option RequestStatus
  fields : List (String × String)
deriving DecidableEq, Repr

/-- The handler's `Request`: a struct embedding `ExploreRequest`
(`request.ExploreRequest`, `request.UID`, `request.Kind`). -/
structure Request where
  exploreRequest : ExploreRequest
deriving DecidableEq, Repr

/-- The handler's `Response`: a struct embedding `ExploreResponse`
(`response.ExploreResponse`). -/
structure Response where
  exploreResponse : ExploreResponse
deriving DecidableEq, Repr

/-- Type/version metadata of the wire envelope. -/
structure TypeMeta where
  kind : String
  apiVersion : String
deriving DecidableEq, Repr

/-- The wire envelope `configv1alpha1.ExploreReview`: metadata plus two nilable
pointers, `Request` and `Response`. -/
structure ExploreReview where
  typeMeta : TypeMeta
  request : Option ExploreRequest
  response : Option ExploreResponse
deriving DecidableEq, Repr

/-- The part of `r.Body` the handler uses: the result of `ioutil.ReadAll`. -/
structure Body where
  readAll : Except String String

/-- The part of `*http.Request` the handler uses: `r.Body` (nil or a stream) and
`r.Header.Get("Content-Type")`, which is the empty string for an absent header. -/
structure HttpRequest where
  body : Option Body
  contentType : String

/-- The webhook with its decision function `Handle` (the context argument is
only handed through and is left out). -/
structure Webhook where
  Handle : Request → Response

/-- Value of `http.StatusBadRequest`. -/
def StatusBadRequest : Int := 400

/-- Value of `http.StatusInternalServerError`. -/
def StatusInternalServerError : Int := 500

/-- Modelled from the spec: the helper `Errored` is not part of the source file;
the spec (4.4) maps an error and a numeric code to a response with
`successful = false`, `status = (code, error message)` and an empty UID. -/
def Errored (code : Int) (err : String) : Response :=
  ⟨{ uid := "", successful := false,
     status := some { code := code, message := err }, fields := [] }⟩

/-! ## Effects -/

/-- Argument of a formatted log call. -/
inductive LogArg where
  | str (s : String)
  | bool (b : Bool)
  | int (i : Int)
  | gvk (k : GroupVersionKind)
deriving DecidableEq, Repr

/-- The calls a run makes on its collaborators, in program order. -/
inductive Event where
  /-- Call `ioutil.ReadAll(r.Body)`. -/
  | readAll
  /-- Call `r.Body.Close()` (deferred). -/
  | close
  /-- Call `admissionCodecs.UniversalDeserializer().Decode(body, nil, &er)`. -/
  | decode (body : String)
  /-- Call `wh.Handle(ctx, request)`. -/
  | handle (request : Request)
  /-- Call `json.NewEncoder(w).Encode(review)` with its result (`none`: no error). -/
  | encode (review : ExploreReview) (err : Option String)
  /-- Call `w.WriteHeader(code)`; no statement of the source makes it. -/
  | writeHeader (code : Nat)
  /-- Call `klog.Errorf(format, err)`. -/
  | errorf (format : String) (err : String)
  /-- Call `klog.V(v).Infof(format, args...)`. -/
  | infof (v : Nat) (format : String) (args : List LogArg)
deriving DecidableEq, Repr

/-- How a run ends: a normal return, a Go panic, or recursion deeper than the
fuel of the model allows. -/
inductive Outcome where
  | returned
  | panicked
  | outOfFuel
deriving DecidableEq, Repr

/-- The result of a run over an output stream with state `σ`. -/
structure Run (σ : Type) where
  w : σ
  trace : List Event
  outcome : Outcome

/-- Put the events `pre`, which happened first, in front of a run. -/
def Run.after {σ : Type} (pre : List Event) (run : Run σ) : Run σ :=
  { run with trace := pre ++ run.trace }

/-- The deferred `r.Body.Close()`: it runs when the function body returns or
panics, and does not run while the body has not come back. -/
def Run.deferClose {σ : Type} (run : Run σ) : Run σ :=
  match run.outcome with
  | .outOfFuel => run
  | _ => { run with trace := run.trace ++ [Event.close] }

/-! ## The handler -/

/-- The envelope built by `writeResponse`:
`configv1alpha1.ExploreReview{Response: &response.ExploreResponse}`. -/
def responseReview (response : Response) : ExploreReview :=
  { typeMeta := { kind := "", apiVersion := "" },
    request := none,
    response := some response.exploreResponse }

/-- The `else` branch of `writeExploreResponse`, entered after `review` has been
encoded without error onto the stream, now in state `w1`.  The arguments of a
log call are evaluated before the call, so `response.Successful` on a nil
`review.Response` and `response.Status.Code` on a nil `Status` panic. -/
def logWritten {σ : Type} (w1 : σ) (review : ExploreReview) : Run σ :=
  match review.response with
  | none => { w := w1, trace := [Event.encode review none], outcome := .panicked }
  | some response =>
    if response.successful then
      { w := w1,
        trace := [Event.encode review none,
                  Event.infof 4 "wrote response UID: %q, successful: %t"
                    [.str response.uid, .bool response.successful]],
        outcome := .returned }
    else
      match response.status with
      | none => { w := w1, trace := [Event.encode review none], outcome := .panicked }
      | some status =>
        { w := w1,
          trace := [Event.encode review none,
                    Event.infof 4 "wrote response UID: %q, successful: %t, response.status.code: %d, response.status.message: %s"
                      [.str response.uid, .bool response.successful,
                       .int status.code, .str status.message]],
          outcome := .returned }

/-- The source function `writeExploreResponse`.  `encode w review` is
`json.NewEncoder(w).Encode(review)` on a stream in state `w`.  On an encode
error the source calls `wh.writeResponse(w, Errored(500, err))`, which is
`writeExploreResponse` on `responseReview (Errored 500 err)`; `fuel` bounds
the depth of that recursion. -/
def writeExploreResponse {σ : Type} (encode : σ → ExploreReview → σ × Option String) :
    Nat → σ → ExploreReview → Run σ
  | fuel, w, review =>
    match encode w review with
    | (w1, some err) =>
      let pre := [Event.encode review (some err),
                  Event.errorf "unable to encode the response: %w" err]
      match fuel with
      | 0 => { w := w1, trace := pre, outcome := .outOfFuel }
      | n + 1 =>
        (writeExploreResponse encode n w1
          (responseReview (Errored StatusInternalServerError err))).after pre
    | (w1, none) => logWritten w1 review

/-- The source function `writeResponse`. -/
def writeResponse {σ : Type} (encode : σ → ExploreReview → σ × Option String)
    (fuel : Nat) (w : σ) (response : Response) : Run σ :=
  writeExploreResponse encode fuel w (responseReview response)

/-- The source function `ServeHTTP`.  `decode body` is the deserializer call,
which fills the pre-wired `request.ExploreRequest` or fails. -/
def ServeHTTP {σ : Type} (decode : String → Except String ExploreRequest)
    (encode : σ → ExploreReview → σ × Option String) (wh : Webhook)
    (fuel : Nat) (w : σ) (r : HttpRequest) : Run σ :=
  match r.body with
  | none =>
    let err := "request body is empty"
    (writeResponse encode fuel w (Errored StatusBadRequest err)).after
      [Event.errorf "bad request: %w" err]
  | some body =>
    Run.deferClose <|
      match body.readAll with
      | .error err =>
        (writeResponse encode fuel w (Errored StatusBadRequest err)).after
          [Event.readAll,
           Event.errorf "unable to read the body from the incoming request: %w" err]
      | .ok bytes =>
        if r.contentType ≠ "application/json" then
          let err := "contentType=" ++ r.contentType ++ ", expected application/json"
          (writeResponse encode fuel w (Errored StatusBadRequest err)).after
            [Event.readAll,
             Event.errorf "unable to process a request with an unknown content type: %w" err]
        else
          match decode bytes with
          | .error err =>
            (writeResponse encode fuel w (Errored StatusBadRequest err)).after
              [Event.readAll, Event.decode bytes,
               Event.errorf "unable to decode the request: %w" err]
          | .ok exploreRequest =>
            let request : Request := ⟨exploreRequest⟩
            let reviewResponse := wh.Handle request
            (writeResponse encode fuel w reviewResponse).after
              [Event.readAll, Event.decode bytes,
               Event.infof 1 "received request UID: %q, kind: %s"
                 [.str request.exploreRequest.uid, .gvk request.exploreRequest.kind],
               Event.handle request]

/-! ## Observations on a trace -/

/-- Recognise a call of the decision function. -/
def isHandle : Event → Bool
  | .handle _ => true
  | _ => false

/-- Recognise an encode attempt. -/
def isEncode : Event → Bool
  | .encode _ _ => true
  | _ => false

/-- Recognise a deserializer call. -/
def isDecode : Event → Bool
  | .decode _ => true
  | _ => false

/-- Number of calls of the decision function in a trace. -/
def handleCalls (t : List Event) : Nat := t.countP isHandle

/-- Number of encode attempts in a trace. -/
def encodeAttempts (t : List Event) : Nat := t.countP isEncode

/-- Number of deserializer calls in a trace. -/
def decodeCalls (t : List Event) : Nat := t.countP isDecode

/-- The envelope of the first encode attempt of a trace. -/
def firstEncoded : List Event → Option ExploreReview
  | [] => none
  | .encode review _ :: _ => some review
  | _ :: t => firstEncoded t

/-- The envelopes a trace has written: those of the encode attempts that came
back without error, in order. -/
def written : List Event → List ExploreReview
  | [] => []
  | .encode review none :: t => review :: written t
  | _ :: t => written t

/-- The UIDs of the responses a trace has written. -/
def writtenUIDs (t : List Event) : List String :=
  (written t).filterMap fun review => review.response.map fun response => response.uid

/-- The status code fixed by the calls on the response stream, by the rule of
`net/http`: a `WriteHeader` before any body write fixes its code, and otherwise
the code is the default 200. -/
def headerStatus : List Event → Nat
  | [] => 200
  | .writeHeader code :: _ => code
  | .encode _ none :: _ => 200
  | _ :: t => headerStatus t

/-- The status line the transport sends for a run: the code fixed by the calls
on the response stream when the handler has returned; no status line when the
handler panicked (the server drops the connection) or has not come back. -/
def transportStatus (t : List Event) : Outcome → Option Nat
  | .returned => some (headerStatus t)
  | _ => none

/-! ## Sample collaborators -/

/-- A request body, the JSON text of an envelope whose request has the UID `abc`
and an object for its kind. -/
def sampleBody : String :=
  "\x7b\"request\":\x7b\"uid\":\"abc\",\"kind\":\x7b\"group\":\"apps\",\"version\":\"v1\",\"kind\":\"Deployment\"\x7d\x7d\x7d"

/-- The request carried by `sampleBody`. -/
def sampleRequest : ExploreRequest :=
  { uid := "abc", kind := { group := "apps", version := "v1", kind := "Deployment" },
    fields := [] }

/-- A request body whose kind is a JSON string instead of an object; the
deserializer rejects it. -/
def stringKindBody : String :=
  "\x7b\"request\":\x7b\"uid\":\"abc\",\"kind\":\"Deployment\"\x7d\x7d"

/-- The deserializer as a table over the bodies used below: `sampleBody`
decodes to `sampleRequest`; the empty body decodes and leaves the request at
its zero value; `stringKindBody` is rejected.  Bodies outside this table are
not used and fall under the last case. -/
def sampleDecode (body : String) : Except String ExploreRequest :=
  if body = sampleBody then .ok sampleRequest
  else if body = "" then
    .ok { uid := "", kind := { group := "", version := "", kind := "" }, fields := [] }
  else .error "json: cannot unmarshal string into Go struct field .request.kind"

/-- A stream on which every encode succeeds; its state counts the envelopes. -/
def okEncode (w : Nat) (_ : ExploreReview) : Nat × Option String :=
  (w + 1, none)

/-- A stream on which every encode fails, as on a closed connection. -/
def brokenEncode (w : Nat) (_ : ExploreReview) : Nat × Option String :=
  (w + 1, some "write: broken pipe")

/-- A stream on which the first encode fails and the later ones succeed. -/
def failOnceEncode (w : Nat) (_ : ExploreReview) : Nat × Option String :=
  if w < 1 then (w + 1, some "write: broken pipe") else (w + 1, none)

/-- A stream on which the first three encodes fail and the later ones succeed. -/
def flakyEncode (w : Nat) (_ : ExploreReview) : Nat × Option String :=
  if w < 3 then (w + 1, some "write: broken pipe") else (w + 1, none)

/-- A decision function that echoes the UID and allows. -/
def allowHook : Webhook :=
  ⟨fun req => ⟨{ uid := req.exploreRequest.uid, successful := true,
                 status := none, fields := [] }⟩⟩

/-- A decision function that echoes the UID and denies with status 403. -/
def denyHook : Webhook :=
  ⟨fun req => ⟨{ uid := req.exploreRequest.uid, successful := false,
                 status := some { code := 403, message := "denied" }, fields := [] }⟩⟩

/-- A decision function that answers every request under the UID `other`. -/
def fixedUIDHook : Webhook :=
  ⟨fun _ => ⟨{ uid := "other", successful := true, status := none, fields := [] }⟩⟩

/-- A decision function that denies without a status object. -/
def bareDenyHook : Webhook :=
  ⟨fun req => ⟨{ uid := req.exploreRequest.uid, successful := false,
                 status := none, fields := [] }⟩⟩

/-- The events the handler produces itself between the read of the body and
the call of the writer: deserializer call, decision function call, log calls. -/
def preEvent : Event → Bool
  | .decode _ => true
  | .handle _ => true
  | .errorf _ _ => true
  | .infof _ _ _ => true
  | _ => false

/-- Recognise a call that sets the transport status code. -/
def isWriteHeader : Event → Bool
  | .writeHeader _ => true
  | _ => false

/-- The events the response writer itself can produce. -/
def writerEvent : Event → Bool
  | .encode _ _ => true
  | .errorf _ _ => true
  | .infof _ _ _ => true
  | _ => false

/-! ## Lemmas on the response writer -/

theorem after_trace {σ : Type} (pre : List Event) (run : Run σ) :
    (run.after pre).trace = pre ++ run.trace := rfl

theorem after_outcome {σ : Type} (pre : List Event) (run : Run σ) :
    (run.after pre).outcome = run.outcome := rfl

theorem deferClose_trace {σ : Type} (run : Run σ) :
    run.deferClose.trace =
      if run.outcome = Outcome.outOfFuel then run.trace else run.trace ++ [Event.close] := by
  unfold Run.deferClose
  cases h : run.outcome <;> simp

theorem deferClose_outcome {σ : Type} (run : Run σ) :
    run.deferClose.outcome = run.outcome := by
  unfold Run.deferClose
  cases h : run.outcome <;> simp [h]

theorem writeExploreResponse_ok {σ : Type}
    (encode : σ → ExploreReview → σ × Option String) (fuel : Nat) (w w1 : σ)
    (review : ExploreReview) (h : encode w review = (w1, none)) :
    writeExploreResponse encode fuel w review = logWritten w1 review := by
  cases fuel <;> simp [writeExploreResponse, h]

theorem writeExploreResponse_fail_zero {σ : Type}
    (encode : σ → ExploreReview → σ × Option String) (w w1 : σ)
    (review : ExploreReview) (err : String) (h : encode w review = (w1, some err)) :
    writeExploreResponse encode 0 w review =
      { w := w1,
        trace := [Event.encode review (some err),
                  Event.errorf "unable to encode the response: %w" err],
        outcome := .outOfFuel } := by
  simp [writeExploreResponse, h]

/-- The recursive call of `writeExploreResponse` is the call
`wh.writeResponse(w, Errored(http.StatusInternalServerError, err))` of the source. -/
theorem writeExploreResponse_fail_succ {σ : Type}
    (encode : σ → ExploreReview → σ × Option String) (n : Nat) (w w1 : σ)
    (review : ExploreReview) (err : String) (h : encode w review = (w1, some err)) :
    writeExploreResponse encode (n + 1) w review =
      (writeResponse encode n w1 (Errored StatusInternalServerError err)).after
        [Event.encode review (some err),
         Event.errorf "unable to encode the response: %w" err] := by
  unfold writeResponse
  conv_lhs => unfold writeExploreResponse
  simp only [h]

theorem logWritten_events {σ : Type} (w1 : σ) (review : ExploreReview) :
    ∀ e ∈ (logWritten w1 review).trace, writerEvent e = true := by
  unfold logWritten
  split
  · simp [writerEvent]
  · split
    · simp [writerEvent]
    · split <;> simp [writerEvent]

theorem logWritten_head {σ : Type} (w1 : σ) (review : ExploreReview) :
    ∃ rest, (logWritten w1 review).trace = Event.encode review none :: rest := by
  unfold logWritten
  split
  · exact ⟨_, rfl⟩
  · split
    · exact ⟨_, rfl⟩
    · split <;> exact ⟨_, rfl⟩

theorem logWritten_outcome {σ : Type} (w1 : σ) (review : ExploreReview) :
    (logWritten w1 review).outcome ≠ Outcome.outOfFuel := by
  unfold logWritten
  split
  · simp
  · split
    · simp
    · split <;> simp

/-- Every event of a writer run is an encode attempt or a log call. -/
theorem writeExploreResponse_events {σ : Type}
    (encode : σ → ExploreReview → σ × Option String) (fuel : Nat) (w : σ)
    (review : ExploreReview) :
    ∀ e ∈ (writeExploreResponse encode fuel w review).trace, writerEvent e = true := by
  induction fuel generalizing w review with
  | zero =>
    rcases h : encode w review with ⟨w1, _ | err⟩
    · rw [writeExploreResponse_ok encode 0 w w1 review h]
      exact logWritten_events w1 review
    · rw [writeExploreResponse_fail_zero encode w w1 review err h]
      simp [writerEvent]
  | succ n ih =>
    rcases h : encode w review with ⟨w1, _ | err⟩
    · rw [writeExploreResponse_ok encode (n + 1) w w1 review h]
      exact logWritten_events w1 review
    · rw [writeExploreResponse_fail_succ encode n w w1 review err h]
      intro e he
      simp only [after_trace, List.mem_append, List.mem_cons, List.mem_singleton,
        List.not_mem_nil, or_false] at he
      rcases he with (rfl | rfl) | he
      · rfl
      · rfl
      · exact ih _ _ e he

/-- The first event of a writer run is the encode attempt for its argument. -/
theorem writeExploreResponse_head {σ : Type}
    (encode : σ → ExploreReview → σ × Option String) (fuel : Nat) (w : σ)
    (review : ExploreReview) :
    ∃ res rest, (writeExploreResponse encode fuel w review).trace
      = Event.encode review res :: rest := by
  rcases h : encode w review with ⟨w1, _ | err⟩
  · rw [writeExploreResponse_ok encode fuel w w1 review h]
    obtain ⟨rest, hr⟩ := logWritten_head w1 review
    exact ⟨none, rest, hr⟩
  · cases fuel with
    | zero =>
      rw [writeExploreResponse_fail_zero encode w w1 review err h]
      exact ⟨_, _, rfl⟩
    | succ n =>
      rw [writeExploreResponse_fail_succ encode n w w1 review err h]
      exact ⟨_, _, rfl⟩

/-- A writer run that does not run out of fuel ends with a successful encode
attempt in its trace. -/
theorem writeExploreResponse_encoded {σ : Type}
    (encode : σ → ExploreReview → σ × Option String) (fuel : Nat) (w : σ)
    (review : ExploreReview)
    (h : (writeExploreResponse encode fuel w review).outcome ≠ Outcome.outOfFuel) :
    ∃ rv, Event.encode rv none ∈ (writeExploreResponse encode fuel w review).trace := by
  induction fuel generalizing w review with
  | zero =>
    rcases he : encode w review with ⟨w1, _ | err⟩
    · rw [writeExploreResponse_ok encode 0 w w1 review he]
      obtain ⟨rest, hr⟩ := logWritten_head w1 review
      exact ⟨review, by simp [hr]⟩
    · rw [writeExploreResponse_fail_zero encode w w1 review err he] at h
      simp at h
  | succ n ih =>
    rcases he : encode w review with ⟨w1, _ | err⟩
    · rw [writeExploreResponse_ok encode (n + 1) w w1 review he]
      obtain ⟨rest, hr⟩ := logWritten_head w1 review
      exact ⟨review, by simp [hr]⟩
    · rw [writeExploreResponse_fail_succ encode n w w1 review err he] at h ⊢
      simp only [after_outcome] at h
      obtain ⟨rv, hrv⟩ := ih _ _ h
      exact ⟨rv, by simp [after_trace, writeResponse, hrv]⟩

/-! ## Lemmas on traces -/

theorem deferClose_shape {σ : Type} (run : Run σ) :
    ∃ tail, run.deferClose.trace = run.trace ++ tail ∧
      (run.outcome ≠ Outcome.outOfFuel → tail = [Event.close]) ∧
      (run.outcome = Outcome.outOfFuel → tail = []) := by
  rw [deferClose_trace]
  by_cases h : run.outcome = Outcome.outOfFuel
  · exact ⟨[], by simp [h], by simp [h], by simp⟩
  · exact ⟨[Event.close], by simp [h], by simp, by simp [h]⟩

/-- Shape of the trace of `writeResponse` run after the events `pre`. -/
theorem writeResponse_shape {σ : Type}
    (encode : σ → ExploreReview → σ × Option String) (fuel : Nat) (w : σ)
    (response : Response) (pre : List Event) :
    ∃ res rest, ((writeResponse encode fuel w response).after pre).trace
        = pre ++ Event.encode (responseReview response) res :: rest ∧
      (∀ e ∈ rest, writerEvent e = true) ∧
      (((writeResponse encode fuel w response).after pre).outcome ≠ Outcome.outOfFuel →
        ∃ rv, Event.encode rv none ∈ Event.encode (responseReview response) res :: rest) := by
  obtain ⟨res, rest, h⟩ := writeExploreResponse_head encode fuel w (responseReview response)
  have hev := writeExploreResponse_events encode fuel w (responseReview response)
  refine ⟨res, rest, ?_, ?_, ?_⟩
  · rw [after_trace, writeResponse, h]
  · intro e he
    exact hev e (by rw [h]; exact List.mem_cons_of_mem _ he)
  · intro hout
    rw [after_outcome, writeResponse] at hout
    obtain ⟨rv, hrv⟩ := writeExploreResponse_encoded encode fuel w _ hout
    exact ⟨rv, by rw [h] at hrv; exact hrv⟩

/-- Shape of the trace of `writeResponse` run after the events `pre` under the
deferred close of the body. -/
theorem deferred_shape {σ : Type}
    (encode : σ → ExploreReview → σ × Option String) (fuel : Nat) (w : σ)
    (response : Response) (pre : List Event) :
    ∃ res rest tail, ((writeResponse encode fuel w response).after pre).deferClose.trace
        = pre ++ Event.encode (responseReview response) res :: (rest ++ tail) ∧
      (∀ e ∈ rest, writerEvent e = true) ∧
      (((writeResponse encode fuel w response).after pre).deferClose.outcome
          ≠ Outcome.outOfFuel →
        tail = [Event.close] ∧
        ∃ rv, Event.encode rv none ∈ Event.encode (responseReview response) res :: rest) ∧
      (((writeResponse encode fuel w response).after pre).deferClose.outcome
          = Outcome.outOfFuel → tail = []) := by
  obtain ⟨res, rest, h, hev, hen⟩ := writeResponse_shape encode fuel w response pre
  obtain ⟨tail, ht, h1, h2⟩ := deferClose_shape ((writeResponse encode fuel w response).after pre)
  refine ⟨res, rest, tail, ?_, hev, ?_, ?_⟩
  · rw [ht, h]; simp
  · intro hout
    rw [deferClose_outcome] at hout
    exact ⟨h1 hout, hen hout⟩
  · intro hout
    rw [deferClose_outcome] at hout
    exact h2 hout

/-- A count that skips the events of the writer and the close of the body sees
only the events before the writer. -/
theorem countP_writer_tail (p : Event → Bool) (pre rest tail : List Event) (enc : Event)
    (hp : ∀ e, writerEvent e = true → p e = false) (hclose : p Event.close = false)
    (henc : writerEvent enc = true)
    (hrest : ∀ e ∈ rest, writerEvent e = true) (htail : tail = [] ∨ tail = [Event.close]) :
    (pre ++ enc :: (rest ++ tail)).countP p = pre.countP p := by
  have h1 : rest.countP p = 0 := by
    rw [List.countP_eq_zero]
    intro e he
    simp [hp e (hrest e he)]
  have h2 : tail.countP p = 0 := by
    rcases htail with rfl | rfl
    · rfl
    · simp [List.countP_cons, hclose]
  rw [List.countP_append, List.countP_cons, List.countP_append, h1, h2, hp enc henc]
  simp

theorem handle_skips_writer (e : Event) (h : writerEvent e = true) :
    isHandle e = false := by
  cases e <;> first | rfl | cases h

theorem decode_skips_writer (e : Event) (h : writerEvent e = true) :
    isDecode e = false := by
  cases e <;> first | rfl | cases h

/-! ## The five paths of the handler -/

theorem ServeHTTP_noBody {σ : Type} (decode : String → Except String ExploreRequest)
    (encode : σ → ExploreReview → σ × Option String) (wh : Webhook)
    (fuel : Nat) (w : σ) (ct : String) :
    ServeHTTP decode encode wh fuel w { body := none, contentType := ct } =
      (writeResponse encode fuel w (Errored 400 "request body is empty")).after
        [Event.errorf "bad request: %w" "request body is empty"] := rfl

theorem ServeHTTP_readError {σ : Type} (decode : String → Except String ExploreRequest)
    (encode : σ → ExploreReview → σ × Option String) (wh : Webhook)
    (fuel : Nat) (w : σ) (ct err : String) :
    ServeHTTP decode encode wh fuel w { body := some ⟨.error err⟩, contentType := ct } =
      ((writeResponse encode fuel w (Errored 400 err)).after
        [Event.readAll,
         Event.errorf "unable to read the body from the incoming request: %w" err]).deferClose :=
  rfl

theorem ServeHTTP_contentType {σ : Type} (decode : String → Except String ExploreRequest)
    (encode : σ → ExploreReview → σ × Option String) (wh : Webhook)
    (fuel : Nat) (w : σ) (ct bytes : String) (hct : ct ≠ "application/json") :
    ServeHTTP decode encode wh fuel w { body := some ⟨.ok bytes⟩, contentType := ct } =
      ((writeResponse encode fuel w
          (Errored 400 ("contentType=" ++ ct ++ ", expected application/json"))).after
        [Event.readAll,
         Event.errorf "unable to process a request with an unknown content type: %w"
           ("contentType=" ++ ct ++ ", expected application/json")]).deferClose := by
  simp [ServeHTTP, hct, StatusBadRequest]

theorem ServeHTTP_decodeError {σ : Type} (decode : String → Except String ExploreRequest)
    (encode : σ → ExploreReview → σ × Option String) (wh : Webhook)
    (fuel : Nat) (w : σ) (bytes err : String) (hd : decode bytes = .error err) :
    ServeHTTP decode encode wh fuel w
        { body := some ⟨.ok bytes⟩, contentType := "application/json" } =
      ((writeResponse encode fuel w (Errored 400 err)).after
        [Event.readAll, Event.decode bytes,
         Event.errorf "unable to decode the request: %w" err]).deferClose := by
  simp [ServeHTTP, hd, StatusBadRequest]

theorem ServeHTTP_dispatch {σ : Type} (decode : String → Except String ExploreRequest)
    (encode : σ → ExploreReview → σ × Option String) (wh : Webhook)
    (fuel : Nat) (w : σ) (bytes : String) (req : ExploreRequest)
    (hd : decode bytes = .ok req) :
    ServeHTTP decode encode wh fuel w
        { body := some ⟨.ok bytes⟩, contentType := "application/json" } =
      ((writeResponse encode fuel w (wh.Handle ⟨req⟩)).after
        [Event.readAll, Event.decode bytes,
         Event.infof 1 "received request UID: %q, kind: %s" [.str req.uid, .gvk req.kind],
         Event.handle ⟨req⟩]).deferClose := by
  simp [ServeHTTP, hd]

theorem deferred_tail {σ : Type}
    (encode : σ → ExploreReview → σ × Option String) (fuel : Nat) (w : σ)
    (response : Response) (pre : List Event) :
    ∃ res rest tail, ((writeResponse encode fuel w response).after pre).deferClose.trace
        = pre ++ Event.encode (responseReview response) res :: (rest ++ tail) ∧
      (∀ e ∈ rest, writerEvent e = true) ∧ (tail = [] ∨ tail = [Event.close]) := by
  obtain ⟨res, rest, tail, h, hev, h1, h2⟩ := deferred_shape encode fuel w response pre
  refine ⟨res, rest, tail, h, hev, ?_⟩
  by_cases hout : ((writeResponse encode fuel w response).after pre).deferClose.outcome
      = Outcome.outOfFuel
  · exact Or.inl (h2 hout)
  · exact Or.inr (h1 hout).1

theorem plain_tail {σ : Type}
    (encode : σ → ExploreReview → σ × Option String) (fuel : Nat) (w : σ)
    (response : Response) (pre : List Event) :
    ∃ res rest tail, ((writeResponse encode fuel w response).after pre).trace
        = pre ++ Event.encode (responseReview response) res :: (rest ++ tail) ∧
      (∀ e ∈ rest, writerEvent e = true) ∧ (tail = [] ∨ tail = [Event.close]) := by
  obtain ⟨res, rest, h, hev, _⟩ := writeResponse_shape encode fuel w response pre
  exact ⟨res, rest, [], by simpa using h, hev, Or.inl rfl⟩

theorem handleCalls_of_shape (t pre rest tail : List Event) (rv : ExploreReview)
    (res : Option String) (h : t = pre ++ Event.encode rv res :: (rest ++ tail))
    (hrest : ∀ e ∈ rest, writerEvent e = true) (htail : tail = [] ∨ tail = [Event.close]) :
    handleCalls t = handleCalls pre := by
  subst h
  exact countP_writer_tail _ pre rest tail _ handle_skips_writer rfl rfl hrest htail

theorem decodeCalls_of_shape (t pre rest tail : List Event) (rv : ExploreReview)
    (res : Option String) (h : t = pre ++ Event.encode rv res :: (rest ++ tail))
    (hrest : ∀ e ∈ rest, writerEvent e = true) (htail : tail = [] ∨ tail = [Event.close]) :
    decodeCalls t = decodeCalls pre := by
  subst h
  exact countP_writer_tail _ pre rest tail _ decode_skips_writer rfl rfl hrest htail

theorem firstEncoded_of_shape (t pre tl : List Event) (rv : ExploreReview)
    (res : Option String) (h : t = pre ++ Event.encode rv res :: tl)
    (hpre : firstEncoded pre = none) : firstEncoded t = some rv := by
  subst h
  induction pre with
  | nil => rfl
  | cons e pre ih =>
    cases e with
    | encode r x => simp [firstEncoded] at hpre
    | _ => exact ih hpre

/-- Every run of the handler is the writer run after a few events of the
handler itself, under the deferred close exactly when the body is present, in
which case the first event is the read of the body. -/
theorem ServeHTTP_paths {σ : Type} (decode : String → Except String ExploreRequest)
    (encode : σ → ExploreReview → σ × Option String) (wh : Webhook)
    (fuel : Nat) (w : σ) (r : HttpRequest) :
    (r.body = none ∧ ∃ response pre,
      ServeHTTP decode encode wh fuel w r = (writeResponse encode fuel w response).after pre ∧
      ∀ e ∈ pre, preEvent e = true) ∨
    (r.body ≠ none ∧ ∃ response pre,
      ServeHTTP decode encode wh fuel w r
        = ((writeResponse encode fuel w response).after (Event.readAll :: pre)).deferClose ∧
      ∀ e ∈ pre, preEvent e = true) := by
  obtain ⟨body, ct⟩ := r
  cases body with
  | none =>
    exact Or.inl ⟨rfl, _, _, ServeHTTP_noBody decode encode wh fuel w ct, by simp [preEvent]⟩
  | some b =>
    obtain ⟨rd⟩ := b
    refine Or.inr ⟨by simp, ?_⟩
    cases rd with
    | error err =>
      exact ⟨_, _, ServeHTTP_readError decode encode wh fuel w ct err, by simp [preEvent]⟩
    | ok bytes =>
      by_cases hct : ct = "application/json"
      · subst hct
        cases hd : decode bytes with
        | error err =>
          exact ⟨_, _, ServeHTTP_decodeError decode encode wh fuel w bytes err hd,
            by simp [preEvent]⟩
        | ok req =>
          exact ⟨_, _, ServeHTTP_dispatch decode encode wh fuel w bytes req hd,
            by simp [preEvent]⟩
      · exact ⟨_, _, ServeHTTP_contentType decode encode wh fuel w ct bytes hct,
          by simp [preEvent]⟩

theorem headerStatus_default (t : List Event) (h : ∀ e ∈ t, isWriteHeader e = false) :
    headerStatus t = 200 := by
  induction t with
  | nil => rfl
  | cons e t ih =>
    have ht : ∀ e ∈ t, isWriteHeader e = false := fun x hx => h x (List.mem_cons_of_mem _ hx)
    cases e with
    | writeHeader k =>
      have := h (Event.writeHeader k) (List.mem_cons_self _ _)
      simp [isWriteHeader] at this
    | encode rv res =>
      cases res with
      | none => rfl
      | some err => exact ih ht
    | _ => exact ih ht

/-- Shape of the trace of every run of the handler. -/
theorem ServeHTTP_trace_shape {σ : Type} (decode : String → Except String ExploreRequest)
    (encode : σ → ExploreReview → σ × Option String) (wh : Webhook)
    (fuel : Nat) (w : σ) (r : HttpRequest) :
    ∃ pre rv res rest tail,
      (ServeHTTP decode encode wh fuel w r).trace
        = pre ++ Event.encode rv res :: (rest ++ tail) ∧
      (∀ e ∈ pre, isWriteHeader e = false) ∧
      (∀ e ∈ rest, writerEvent e = true) ∧
      (tail = [] ∨ tail = [Event.close]) ∧
      ((ServeHTTP decode encode wh fuel w r).outcome ≠ Outcome.outOfFuel →
        ∃ rv1, Event.encode rv1 none ∈ Event.encode rv res :: rest) := by
  have hpre : ∀ e, preEvent e = true → isWriteHeader e = false := by
    intro e he
    cases e <;> first | rfl | cases he
  rcases ServeHTTP_paths decode encode wh fuel w r with
    ⟨_, response, pre, hS, hp⟩ | ⟨_, response, pre, hS, hp⟩
  · obtain ⟨res, rest, h, hrest, hen⟩ := writeResponse_shape encode fuel w response pre
    rw [hS]
    exact ⟨pre, _, res, rest, [], by simpa using h, fun e he => hpre e (hp e he), hrest,
      Or.inl rfl, hen⟩
  · obtain ⟨res, rest, tail, h, hrest, h1, h2⟩ :=
      deferred_shape encode fuel w response (Event.readAll :: pre)
    rw [hS]
    refine ⟨Event.readAll :: pre, _, res, rest, tail, h, ?_, hrest, ?_, fun ho => (h1 ho).2⟩
    · intro e he
      rcases List.mem_cons.mp he with rfl | he
      · rfl
      · exact hpre e (hp e he)
    · by_cases ho : ((writeResponse encode fuel w response).after
          (Event.readAll :: pre)).deferClose.outcome = Outcome.outOfFuel
      · exact Or.inl (h2 ho)
      · exact Or.inr (h1 ho).1

theorem writer_not_writeHeader (e : Event) (h : writerEvent e = true) :
    isWriteHeader e = false := by
  cases e <;> first | rfl | cases h

theorem writer_not_readAll (e : Event) (h : writerEvent e = true) : e ≠ Event.readAll := by
  rintro rfl
  cases h

theorem writer_not_close (e : Event) (h : writerEvent e = true) : e ≠ Event.close := by
  rintro rfl
  cases h

theorem pre_not_readAll (e : Event) (h : preEvent e = true) : e ≠ Event.readAll := by
  rintro rfl
  cases h

theorem pre_not_close (e : Event) (h : preEvent e = true) : e ≠ Event.close := by
  rintro rfl
  cases h

/-- The envelope of the first encode attempt on the dispatch path. -/
theorem firstEncoded_dispatch {σ : Type}
    (decode : String → Except String ExploreRequest)
    (encode : σ → ExploreReview → σ × Option String) (wh : Webhook)
    (fuel : Nat) (w : σ) (bytes : String) (req : ExploreRequest)
    (hd : decode bytes = .ok req) :
    firstEncoded (ServeHTTP decode encode wh fuel w
        { body := some ⟨.ok bytes⟩, contentType := "application/json" }).trace
      = some (responseReview (wh.Handle ⟨req⟩)) := by
  rw [ServeHTTP_dispatch decode encode wh fuel w bytes req hd]
  obtain ⟨res, rest, tail, h, _⟩ :=
    deferred_tail encode fuel w (wh.Handle ⟨req⟩)
      [Event.readAll, Event.decode bytes,
       Event.infof 1 "received request UID: %q, kind: %s" [.str req.uid, .gvk req.kind],
       Event.handle ⟨req⟩]
  exact firstEncoded_of_shape _ _ _ _ res h rfl

/-- When the body stream is present and the handler comes back (read
error, wrong content type, decode error or dispatch; by return or by panic),
the trace is the read of the body, then events that are neither a read nor a
close and contain a successful encode, then one close of the body, which is the
last event; in a run that has not come back the body is not closed.  When the
body stream is absent it is neither read nor closed.  On a stream that accepts
every envelope in its first state the handler does come back. -/
theorem ServeHTTP_body_closed_on_exit {σ : Type}
    (decode : String → Except String ExploreRequest)
    (encode : σ → ExploreReview → σ × Option String) (wh : Webhook)
    (fuel : Nat) (w : σ) :
    (∀ (b : Body) (ct : String),
      ((ServeHTTP decode encode wh fuel w { body := some b, contentType := ct }).outcome
          ≠ Outcome.outOfFuel →
        ∃ mid,
          (ServeHTTP decode encode wh fuel w { body := some b, contentType := ct }).trace
            = Event.readAll :: (mid ++ [Event.close]) ∧
          Event.readAll ∉ mid ∧ Event.close ∉ mid ∧
          ∃ rv, Event.encode rv none ∈ mid) ∧
      ((ServeHTTP decode encode wh fuel w { body := some b, contentType := ct }).outcome
          = Outcome.outOfFuel →
        Event.close ∉
          (ServeHTTP decode encode wh fuel w { body := some b, contentType := ct }).trace)) ∧
    (∀ ct,
      Event.readAll ∉
        (ServeHTTP decode encode wh fuel w { body := none, contentType := ct }).trace ∧
      Event.close ∉
        (ServeHTTP decode encode wh fuel w { body := none, contentType := ct }).trace) ∧
    (∀ r, (∀ rv, (encode w rv).2 = none) →
      (ServeHTTP decode encode wh fuel w r).outcome ≠ Outcome.outOfFuel) := by
  refine ⟨?_, ?_, ?_⟩
  · intro b ct
    rcases ServeHTTP_paths decode encode wh fuel w { body := some b, contentType := ct } with
      ⟨hb, _⟩ | ⟨_, response, pre, hS, hp⟩
    · simp at hb
    · obtain ⟨res, rest, tail, h, hrest, h1, h2⟩ :=
        deferred_shape encode fuel w response (Event.readAll :: pre)
      rw [hS]
      have hmid : ∀ e ∈ pre ++ Event.encode (responseReview response) res :: rest,
          e ≠ Event.readAll ∧ e ≠ Event.close := by
        intro e he
        simp only [List.mem_append, List.mem_cons] at he
        rcases he with he | rfl | he
        · exact ⟨pre_not_readAll e (hp e he), pre_not_close e (hp e he)⟩
        · exact ⟨by simp, by simp⟩
        · exact ⟨writer_not_readAll e (hrest e he), writer_not_close e (hrest e he)⟩
      refine ⟨?_, ?_⟩
      · intro ho
        obtain ⟨ht, rv, hrv⟩ := h1 ho
        refine ⟨pre ++ Event.encode (responseReview response) res :: rest, ?_, ?_, ?_, rv, ?_⟩
        · rw [h, ht]
          simp
        · exact fun hm => (hmid _ hm).1 rfl
        · exact fun hm => (hmid _ hm).2 rfl
        · exact List.mem_append_right _ hrv
      · intro ho
        rw [h, h2 ho]
        intro hm
        simp only [List.append_nil, List.cons_append, List.mem_cons] at hm
        rcases hm with hm | hm
        · cases hm
        · exact (hmid _ (by simpa using hm)).2 rfl
  · intro ct
    rw [ServeHTTP_noBody]
    obtain ⟨res, rest, h, hrest, _⟩ :=
      writeResponse_shape encode fuel w (Errored 400 "request body is empty")
        [Event.errorf "bad request: %w" "request body is empty"]
    rw [h]
    refine ⟨?_, ?_⟩
    · intro hm
      simp only [List.cons_append, List.nil_append, List.mem_cons] at hm
      rcases hm with hm | hm | hm
      · cases hm
      · cases hm
      · exact writer_not_readAll _ (hrest _ hm) rfl
    · intro hm
      simp only [List.cons_append, List.nil_append, List.mem_cons] at hm
      rcases hm with hm | hm | hm
      · cases hm
      · cases hm
      · exact writer_not_close _ (hrest _ hm) rfl
  · intro r hok
    have hw : ∀ response, (writeResponse encode fuel w response).outcome
        ≠ Outcome.outOfFuel := by
      intro response
      have he : encode w (responseReview response)
          = ((encode w (responseReview response)).1, none) := by
        rw [← hok (responseReview response)]
      rw [writeResponse, writeExploreResponse_ok encode fuel w _ _ he]
      exact logWritten_outcome _ _
    rcases ServeHTTP_paths decode encode wh fuel w r with
      ⟨_, response, pre, hS, _⟩ | ⟨_, response, pre, hS, _⟩
    · rw [hS, after_outcome]
      exact hw response
    · rw [hS, deferClose_outcome, after_outcome]
      exact hw response

/-! ## What a run has written -/

theorem written_append (a b : List Event) : written (a ++ b) = written a ++ written b := by
  induction a with
  | nil => rfl
  | cons e a ih =>
    cases e with
    | encode rv res =>
      cases res with
      | none => simp [written, ih]
      | some err => simpa [written] using ih
    | _ => simpa [written] using ih

theorem logWritten_written {σ : Type} (w1 : σ) (review : ExploreReview) :
    written (logWritten w1 review).trace = [review] := by
  unfold logWritten
  split
  · rfl
  · split
    · rfl
    · split <;> rfl

/-- A writer run starts with the encode attempt for its argument and the result
of that attempt; when the attempt succeeds the argument is the one envelope
written and the run comes back, and when it fails the run writes nothing or
one fallback envelope `Errored 500 e`. -/
theorem writer_run_cases {σ : Type}
    (encode : σ → ExploreReview → σ × Option String) (fuel : Nat) (w : σ)
    (review : ExploreReview) :
    (∃ rest, (writeExploreResponse encode fuel w review).trace
        = Event.encode review (encode w review).2 :: rest ∧
      ∀ e ∈ rest, writerEvent e = true) ∧
    ((encode w review).2 = none →
      written (writeExploreResponse encode fuel w review).trace = [review] ∧
      (writeExploreResponse encode fuel w review).outcome ≠ Outcome.outOfFuel) ∧
    (∀ err, (encode w review).2 = some err →
      written (writeExploreResponse encode fuel w review).trace = [] ∨
      ∃ e, written (writeExploreResponse encode fuel w review).trace
        = [responseReview (Errored 500 e)]) := by
  have hev := writeExploreResponse_events encode fuel w review
  refine ⟨?_, ?_, ?_⟩
  · obtain ⟨res, rest, h⟩ := writeExploreResponse_head encode fuel w review
    have hres : res = (encode w review).2 := by
      rcases he : encode w review with ⟨w1, _ | err⟩
      · rw [writeExploreResponse_ok encode fuel w w1 review he] at h
        obtain ⟨r2, hr2⟩ := logWritten_head w1 review
        rw [hr2] at h
        injection h with h1 _
        injection h1 with _ h2
        exact h2.symm
      · cases fuel with
        | zero =>
          rw [writeExploreResponse_fail_zero encode w w1 review err he] at h
          injection h with h1 _
          injection h1 with _ h2
          exact h2.symm
        | succ n =>
          rw [writeExploreResponse_fail_succ encode n w w1 review err he, after_trace] at h
          injection h with h1 _
          injection h1 with _ h2
          exact h2.symm
    subst hres
    exact ⟨rest, h, fun e he => hev e (by rw [h]; exact List.mem_cons_of_mem _ he)⟩
  · intro hok
    have he : encode w review = ((encode w review).1, none) := by rw [← hok]
    rw [writeExploreResponse_ok encode fuel w _ review he]
    exact ⟨logWritten_written _ _, logWritten_outcome _ _⟩
  · induction fuel generalizing w review with
    | zero =>
      intro err herr
      have he : encode w review = ((encode w review).1, some err) := by rw [← herr]
      rw [writeExploreResponse_fail_zero encode w _ review err he]
      exact Or.inl rfl
    | succ n ih =>
      intro err herr
      have he : encode w review = ((encode w review).1, some err) := by rw [← herr]
      rw [writeExploreResponse_fail_succ encode n w _ review err he, after_trace,
        written_append, writeResponse]
      have hpre : written [Event.encode review (some err),
          Event.errorf "unable to encode the response: %w" err] = [] := rfl
      rw [hpre, List.nil_append]
      cases hres : (encode (encode w review).1
          (responseReview (Errored StatusInternalServerError err))).2 with
      | none =>
        have he2 : encode (encode w review).1
              (responseReview (Errored StatusInternalServerError err))
            = ((encode (encode w review).1
                (responseReview (Errored StatusInternalServerError err))).1, none) := by
          rw [← hres]
        rw [writeExploreResponse_ok encode n _ _ _ he2]
        exact Or.inr ⟨err, logWritten_written _ _⟩
      | some err2 =>
        exact ih _ _ (fun e he => writeExploreResponse_events encode n _ _ e he) err2 hres

/-- The trace of a writer run after the events `pre` under the deferred close. -/
theorem after_defer_trace {σ : Type} (run : Run σ) (pre : List Event) :
    ∃ tail, (run.after pre).deferClose.trace = pre ++ run.trace ++ tail ∧
      (tail = [] ∨ tail = [Event.close]) := by
  obtain ⟨tail, ht, h1, h2⟩ := deferClose_shape (run.after pre)
  refine ⟨tail, by rw [ht, after_trace], ?_⟩
  by_cases ho : (run.after pre).outcome = Outcome.outOfFuel
  · exact Or.inl (h2 ho)
  · exact Or.inr (h1 ho)

/-- Facts on a trace made of events `pre` without an encode, a run of
`writeResponse`, and at most the close of the body. -/
theorem run_facts {σ : Type}
    (encode : σ → ExploreReview → σ × Option String) (fuel : Nat) (w : σ)
    (response : Response) (pre tail : List Event) (hpre : written pre = [])
    (htail : tail = [] ∨ tail = [Event.close]) :
    ∃ rest, pre ++ (writeResponse encode fuel w response).trace ++ tail
        = pre ++ Event.encode (responseReview response)
            (encode w (responseReview response)).2 :: rest ∧
      decodeCalls rest = 0 ∧ handleCalls rest = 0 ∧ Event.readAll ∉ rest ∧
      ((encode w (responseReview response)).2 = none →
        written (pre ++ (writeResponse encode fuel w response).trace ++ tail)
          = [responseReview response]) ∧
      (∀ err, (encode w (responseReview response)).2 = some err →
        written (pre ++ (writeResponse encode fuel w response).trace ++ tail) = [] ∨
        ∃ e, written (pre ++ (writeResponse encode fuel w response).trace ++ tail)
          = [responseReview (Errored 500 e)]) := by
  obtain ⟨⟨rest, h, hrest⟩, hok, hfail⟩ :=
    writer_run_cases encode fuel w (responseReview response)
  have htw : written tail = [] := by
    rcases htail with rfl | rfl <;> rfl
  have hw : written (pre ++ (writeResponse encode fuel w response).trace ++ tail)
      = written (writeResponse encode fuel w response).trace := by
    rw [written_append, written_append, hpre, htw]
    simp
  have hq : ∀ e ∈ rest ++ tail, writerEvent e = true ∨ e = Event.close := by
    intro e he
    rcases List.mem_append.mp he with he | he
    · exact Or.inl (hrest e he)
    · rcases htail with rfl | rfl
      · simp at he
      · exact Or.inr (by simpa using he)
  refine ⟨rest ++ tail, ?_, ?_, ?_, ?_, ?_, ?_⟩
  · rw [writeResponse, h]
    simp
  · unfold decodeCalls
    rw [List.countP_eq_zero]
    intro e he
    rcases hq e he with hwv | rfl
    · simp [decode_skips_writer e hwv]
    · simp [isDecode]
  · unfold handleCalls
    rw [List.countP_eq_zero]
    intro e he
    rcases hq e he with hwv | rfl
    · simp [handle_skips_writer e hwv]
    · simp [isHandle]
  · intro he
    rcases hq _ he with hwv | hc
    · exact writer_not_readAll _ hwv rfl
    · cases hc
  · intro hsucc
    rw [hw]
    exact (hok hsucc).1
  · intro err herr
    rw [hw]
    exact hfail err herr

/-- After a successful encode of an `Errored` response the writer returns. -/
theorem writeResponse_errored_returned {σ : Type}
    (encode : σ → ExploreReview → σ × Option String) (fuel : Nat) (w : σ)
    (code : Int) (err : String)
    (hok : (encode w (responseReview (Errored code err))).2 = none) :
    (writeResponse encode fuel w (Errored code err)).outcome = Outcome.returned := by
  have he : encode w (responseReview (Errored code err))
      = ((encode w (responseReview (Errored code err))).1, none) := by rw [← hok]
  rw [writeResponse, writeExploreResponse_ok encode fuel w _ _ he]
  rfl

/-- On a stream where every encode fails the writer does not come back. -/
theorem brokenEncode_run (fuel w : Nat) (review : ExploreReview) :
    (writeExploreResponse brokenEncode fuel w review).outcome = Outcome.outOfFuel := by
  induction fuel generalizing w review with
  | zero =>
    rw [writeExploreResponse_fail_zero brokenEncode w (w + 1) review "write: broken pipe" rfl]
  | succ n ih =>
    rw [writeExploreResponse_fail_succ brokenEncode n w (w + 1) review
      "write: broken pipe" rfl, after_outcome, writeResponse]
    exact ih _ _

/-! ## The claims -/

/-- C1: the decision function is invoked exactly once, with the decoded request,
when the body is present, the read succeeds, the Content-Type is
`application/json` and the decode succeeds; it is invoked zero times on an
absent body, a read error, another content type or a decode error. -/
theorem ServeHTTP_handle_calls {σ : Type} (decode : String → Except String ExploreRequest)
    (encode : σ → ExploreReview → σ × Option String) (wh : Webhook)
    (fuel : Nat) (w : σ) :
    (∀ bytes req, decode bytes = .ok req →
      handleCalls (ServeHTTP decode encode wh fuel w
        { body := some ⟨.ok bytes⟩, contentType := "application/json" }).trace = 1 ∧
      Event.handle ⟨req⟩ ∈ (ServeHTTP decode encode wh fuel w
        { body := some ⟨.ok bytes⟩, contentType := "application/json" }).trace) ∧
    (∀ ct, handleCalls (ServeHTTP decode encode wh fuel w
        { body := none, contentType := ct }).trace = 0) ∧
    (∀ err ct, handleCalls (ServeHTTP decode encode wh fuel w
        { body := some ⟨.error err⟩, contentType := ct }).trace = 0) ∧
    (∀ bytes ct, ct ≠ "application/json" →
      handleCalls (ServeHTTP decode encode wh fuel w
        { body := some ⟨.ok bytes⟩, contentType := ct }).trace = 0) ∧
    (∀ bytes err, decode bytes = .error err →
      handleCalls (ServeHTTP decode encode wh fuel w
        { body := some ⟨.ok bytes⟩, contentType := "application/json" }).trace = 0) := by
  refine ⟨?_, ?_, ?_, ?_, ?_⟩
  · intro bytes req hd
    rw [ServeHTTP_dispatch decode encode wh fuel w bytes req hd]
    obtain ⟨res, rest, tail, h, hrest, htail⟩ :=
      deferred_tail encode fuel w (wh.Handle ⟨req⟩)
        [Event.readAll, Event.decode bytes,
         Event.infof 1 "received request UID: %q, kind: %s" [.str req.uid, .gvk req.kind],
         Event.handle ⟨req⟩]
    refine ⟨?_, ?_⟩
    · rw [handleCalls_of_shape _ _ rest tail _ res h hrest htail]
      rfl
    · rw [h]
      simp
  · intro ct
    rw [ServeHTTP_noBody]
    obtain ⟨res, rest, tail, h, hrest, htail⟩ :=
      plain_tail encode fuel w (Errored 400 "request body is empty")
        [Event.errorf "bad request: %w" "request body is empty"]
    rw [handleCalls_of_shape _ _ rest tail _ res h hrest htail]
    rfl
  · intro err ct
    rw [ServeHTTP_readError]
    obtain ⟨res, rest, tail, h, hrest, htail⟩ :=
      deferred_tail encode fuel w (Errored 400 err)
        [Event.readAll,
         Event.errorf "unable to read the body from the incoming request: %w" err]
    rw [handleCalls_of_shape _ _ rest tail _ res h hrest htail]
    rfl
  · intro bytes ct hct
    rw [ServeHTTP_contentType decode encode wh fuel w ct bytes hct]
    obtain ⟨res, rest, tail, h, hrest, htail⟩ :=
      deferred_tail encode fuel w
        (Errored 400 ("contentType=" ++ ct ++ ", expected application/json"))
        [Event.readAll,
         Event.errorf "unable to process a request with an unknown content type: %w"
           ("contentType=" ++ ct ++ ", expected application/json")]
    rw [handleCalls_of_shape _ _ rest tail _ res h hrest htail]
    rfl
  · intro bytes err hd
    rw [ServeHTTP_decodeError decode encode wh fuel w bytes err hd]
    obtain ⟨res, rest, tail, h, hrest, htail⟩ :=
      deferred_tail encode fuel w (Errored 400 err)
        [Event.readAll, Event.decode bytes,
         Event.errorf "unable to decode the request: %w" err]
    rw [handleCalls_of_shape _ _ rest tail _ res h hrest htail]
    rfl

/-- Witness of C1 on the sample collaborators: one call for the sample body sent
as `application/json`, none for the same body sent as `text/plain` and none
for a body whose kind is a string, which does not decode. -/
theorem ServeHTTP_handle_calls_witness :
    handleCalls (ServeHTTP sampleDecode okEncode allowHook 0 0
      { body := some ⟨.ok sampleBody⟩, contentType := "application/json" }).trace = 1 ∧
    handleCalls (ServeHTTP sampleDecode okEncode allowHook 0 0
      { body := some ⟨.ok sampleBody⟩, contentType := "text/plain" }).trace = 0 ∧
    handleCalls (ServeHTTP sampleDecode okEncode allowHook 0 0
      { body := some ⟨.ok stringKindBody⟩, contentType := "application/json" }).trace = 0 :=
  ⟨((ServeHTTP_handle_calls sampleDecode okEncode allowHook 0 0).1
      sampleBody sampleRequest rfl).1,
   (ServeHTTP_handle_calls sampleDecode okEncode allowHook 0 0).2.2.2.1
      sampleBody "text/plain" (by decide),
   (ServeHTTP_handle_calls sampleDecode okEncode allowHook 0 0).2.2.2.2
      stringKindBody "json: cannot unmarshal string into Go struct field .request.kind" rfl⟩

/-- C2: when the handler fails before dispatch, the envelope it hands to the
writer is the one of `Errored 400 err`, with `err` the error of the failing
stage (absent body, read error, content type, decode error); its status code is
400 with that message and its success flag is false. -/
theorem ServeHTTP_failure_bad_request {σ : Type}
    (decode : String → Except String ExploreRequest)
    (encode : σ → ExploreReview → σ × Option String) (wh : Webhook)
    (fuel : Nat) (w : σ) :
    (∀ ct, firstEncoded (ServeHTTP decode encode wh fuel w
        { body := none, contentType := ct }).trace
      = some (responseReview (Errored 400 "request body is empty"))) ∧
    (∀ err ct, firstEncoded (ServeHTTP decode encode wh fuel w
        { body := some ⟨.error err⟩, contentType := ct }).trace
      = some (responseReview (Errored 400 err))) ∧
    (∀ bytes ct, ct ≠ "application/json" →
      firstEncoded (ServeHTTP decode encode wh fuel w
        { body := some ⟨.ok bytes⟩, contentType := ct }).trace
      = some (responseReview
          (Errored 400 ("contentType=" ++ ct ++ ", expected application/json")))) ∧
    (∀ bytes err, decode bytes = .error err →
      firstEncoded (ServeHTTP decode encode wh fuel w
        { body := some ⟨.ok bytes⟩, contentType := "application/json" }).trace
      = some (responseReview (Errored 400 err))) ∧
    (∀ err, (responseReview (Errored 400 err)).response
      = some { uid := "", successful := false,
               status := some { code := 400, message := err }, fields := [] }) := by
  refine ⟨?_, ?_, ?_, ?_, fun _ => rfl⟩
  · intro ct
    rw [ServeHTTP_noBody]
    obtain ⟨res, rest, h, _⟩ :=
      writeResponse_shape encode fuel w (Errored 400 "request body is empty")
        [Event.errorf "bad request: %w" "request body is empty"]
    exact firstEncoded_of_shape _ _ _ _ res h rfl
  · intro err ct
    rw [ServeHTTP_readError]
    obtain ⟨res, rest, tail, h, _⟩ :=
      deferred_tail encode fuel w (Errored 400 err)
        [Event.readAll,
         Event.errorf "unable to read the body from the incoming request: %w" err]
    exact firstEncoded_of_shape _ _ _ _ res h rfl
  · intro bytes ct hct
    rw [ServeHTTP_contentType decode encode wh fuel w ct bytes hct]
    obtain ⟨res, rest, tail, h, _⟩ :=
      deferred_tail encode fuel w
        (Errored 400 ("contentType=" ++ ct ++ ", expected application/json"))
        [Event.readAll,
         Event.errorf "unable to process a request with an unknown content type: %w"
           ("contentType=" ++ ct ++ ", expected application/json")]
    exact firstEncoded_of_shape _ _ _ _ res h rfl
  · intro bytes err hd
    rw [ServeHTTP_decodeError decode encode wh fuel w bytes err hd]
    obtain ⟨res, rest, tail, h, _⟩ :=
      deferred_tail encode fuel w (Errored 400 err)
        [Event.readAll, Event.decode bytes,
         Event.errorf "unable to decode the request: %w" err]
    exact firstEncoded_of_shape _ _ _ _ res h rfl

/-- Witness of C2 on the sample collaborators: a `text/plain` request and a
body that does not decode sent as `application/json` are both answered with
code 400. -/
theorem ServeHTTP_failure_bad_request_witness :
    firstEncoded (ServeHTTP sampleDecode okEncode allowHook 0 0
        { body := some ⟨.ok sampleBody⟩, contentType := "text/plain" }).trace
      = some (responseReview
          (Errored 400 ("contentType=" ++ "text/plain" ++ ", expected application/json"))) ∧
    firstEncoded (ServeHTTP sampleDecode okEncode allowHook 0 0
        { body := some ⟨.ok stringKindBody⟩, contentType := "application/json" }).trace
      = some (responseReview
          (Errored 400 "json: cannot unmarshal string into Go struct field .request.kind")) :=
  ⟨(ServeHTTP_failure_bad_request sampleDecode okEncode allowHook 0 0).2.2.1
      sampleBody "text/plain" (by decide),
   (ServeHTTP_failure_bad_request sampleDecode okEncode allowHook 0 0).2.2.2.1
      stringKindBody "json: cannot unmarshal string into Go struct field .request.kind" rfl⟩

/-- C3: for a well-formed request the envelope handed to the encoder carries
the payload of the response returned by `Handle` unchanged, no request and
empty type/version metadata. -/
theorem ServeHTTP_response_passthrough {σ : Type}
    (decode : String → Except String ExploreRequest)
    (encode : σ → ExploreReview → σ × Option String) (wh : Webhook)
    (fuel : Nat) (w : σ) (bytes : String) (req : ExploreRequest)
    (hd : decode bytes = .ok req) :
    firstEncoded (ServeHTTP decode encode wh fuel w
        { body := some ⟨.ok bytes⟩, contentType := "application/json" }).trace
      = some { typeMeta := { kind := "", apiVersion := "" },
               request := none,
               response := some (wh.Handle ⟨req⟩).exploreResponse } :=
  firstEncoded_dispatch decode encode wh fuel w bytes req hd

/-- Witness of C3: a denial with status 403 and message `denied` reaches the
encoder unchanged. -/
theorem ServeHTTP_response_passthrough_witness :
    firstEncoded (ServeHTTP sampleDecode okEncode denyHook 0 0
        { body := some ⟨.ok sampleBody⟩, contentType := "application/json" }).trace
      = some { typeMeta := { kind := "", apiVersion := "" },
               request := none,
               response := some { uid := "abc", successful := false,
                                  status := some { code := 403, message := "denied" },
                                  fields := [] } } :=
  ServeHTTP_response_passthrough sampleDecode okEncode denyHook 0 0
    sampleBody sampleRequest rfl

/-- C6 on the code: the retry of `writeExploreResponse` is not bounded.  On a
stream where every encode fails, a run allowed `fuel` nested fallback calls
makes `fuel + 1` encode attempts and has not returned, for every `fuel`; on a
stream where the first three encodes fail, the call makes four encode attempts
and then returns. -/
theorem writeExploreResponse_retries_unbounded :
    (∀ (fuel w : Nat) (review : ExploreReview),
      encodeAttempts (writeExploreResponse brokenEncode fuel w review).trace = fuel + 1 ∧
      (writeExploreResponse brokenEncode fuel w review).outcome = Outcome.outOfFuel) ∧
    encodeAttempts (writeExploreResponse flakyEncode 3 0
      (responseReview (allowHook.Handle ⟨sampleRequest⟩))).trace = 4 ∧
    (writeExploreResponse flakyEncode 3 0
      (responseReview (allowHook.Handle ⟨sampleRequest⟩))).outcome = Outcome.returned := by
  refine ⟨?_, by decide, by decide⟩
  intro fuel
  induction fuel with
  | zero =>
    intro w review
    rw [writeExploreResponse_fail_zero brokenEncode w (w + 1) review "write: broken pipe" rfl]
    exact ⟨rfl, rfl⟩
  | succ n ih =>
    intro w review
    rw [writeExploreResponse_fail_succ brokenEncode n w (w + 1) review
      "write: broken pipe" rfl]
    rw [after_trace, after_outcome, writeResponse]
    refine ⟨?_, (ih _ _).2⟩
    have h := (ih (w + 1)
      (responseReview (Errored StatusInternalServerError "write: broken pipe"))).1
    unfold encodeAttempts at h ⊢
    rw [List.countP_append, h]
    simp [List.countP_cons, isEncode]
    omega

theorem after_plain_trace {σ : Type} (run : Run σ) (pre : List Event) :
    (run.after pre).trace = pre ++ run.trace ++ [] := by
  rw [after_trace, List.append_nil]

/-- C4, as stated, fails: on a stream whose first encode fails, a well-formed
request with UID `abc`, answered by a decision function that echoes the UID,
gets as its one written response the fallback `Errored 500`, whose UID is
empty. -/
theorem ServeHTTP_uid_counterexample :
    sampleDecode sampleBody = .ok sampleRequest ∧
    (allowHook.Handle ⟨sampleRequest⟩).exploreResponse.uid = "abc" ∧
    (ServeHTTP sampleDecode failOnceEncode allowHook 1 0
        { body := some ⟨.ok sampleBody⟩, contentType := "application/json" }).trace
      = [Event.readAll, Event.decode sampleBody,
         Event.infof 1 "received request UID: %q, kind: %s"
           [.str "abc", .gvk { group := "apps", version := "v1", kind := "Deployment" }],
         Event.handle ⟨sampleRequest⟩,
         Event.encode
           { typeMeta := { kind := "", apiVersion := "" }, request := none,
             response := some { uid := "abc", successful := true,
                                status := none, fields := [] } }
           (some "write: broken pipe"),
         Event.errorf "unable to encode the response: %w" "write: broken pipe",
         Event.encode
             { typeMeta := { kind := "", apiVersion := "" }, request := none,
               response := some { uid := "", successful := false,
                                  status := some { code := 500, message := "write: broken pipe" },
                                  fields := [] } } none,
         Event.infof 4 "wrote response UID: %q, successful: %t, response.status.code: %d, response.status.message: %s"
           [.str "", .bool false, .int 500, .str "write: broken pipe"],
         Event.close] ∧
    (ServeHTTP sampleDecode failOnceEncode allowHook 1 0
        { body := some ⟨.ok sampleBody⟩, contentType := "application/json" }).outcome = Outcome.returned ∧
    writtenUIDs (ServeHTTP sampleDecode failOnceEncode allowHook 1 0
        { body := some ⟨.ok sampleBody⟩, contentType := "application/json" }).trace = [""] ∧
    "abc" ∉ writtenUIDs (ServeHTTP sampleDecode failOnceEncode allowHook 1 0
        { body := some ⟨.ok sampleBody⟩, contentType := "application/json" }).trace := by
  refine ⟨rfl, rfl, by decide, by decide, by decide, by decide⟩

/-- C4, amended: for a well-formed request and a decision function whose
response carries the UID of the request, when the encode of the response
succeeds that response is the one envelope written and the written UID is the
UID of the decoded request; when that encode fails, every response written is
a fallback with the empty UID. -/
theorem ServeHTTP_uid_of_handle {σ : Type}
    (decode : String → Except String ExploreRequest)
    (encode : σ → ExploreReview → σ × Option String) (wh : Webhook)
    (fuel : Nat) (w : σ) (bytes : String) (req : ExploreRequest)
    (hd : decode bytes = .ok req)
    (huid : (wh.Handle ⟨req⟩).exploreResponse.uid = req.uid) :
    ((encode w
        { typeMeta := { kind := "", apiVersion := "" }, request := none,
          response := some (wh.Handle ⟨req⟩).exploreResponse }).2 = none →
      written (ServeHTTP decode encode wh fuel w
          { body := some ⟨.ok bytes⟩, contentType := "application/json" }).trace
        = [{ typeMeta := { kind := "", apiVersion := "" }, request := none,
             response := some (wh.Handle ⟨req⟩).exploreResponse }] ∧
      writtenUIDs (ServeHTTP decode encode wh fuel w
          { body := some ⟨.ok bytes⟩, contentType := "application/json" }).trace
        = [req.uid]) ∧
    (∀ err, (encode w
        { typeMeta := { kind := "", apiVersion := "" }, request := none,
          response := some (wh.Handle ⟨req⟩).exploreResponse }).2 = some err →
      ∀ uid ∈ writtenUIDs (ServeHTTP decode encode wh fuel w
          { body := some ⟨.ok bytes⟩, contentType := "application/json" }).trace,
        uid = "") := by
  rw [ServeHTTP_dispatch decode encode wh fuel w bytes req hd]
  obtain ⟨tail, ht, htail⟩ := after_defer_trace (writeResponse encode fuel w (wh.Handle ⟨req⟩))
    [Event.readAll, Event.decode bytes,
     Event.infof 1 "received request UID: %q, kind: %s" [.str req.uid, .gvk req.kind],
     Event.handle ⟨req⟩]
  rw [ht]
  obtain ⟨rest, _, _, _, _, hok, hfail⟩ := run_facts encode fuel w (wh.Handle ⟨req⟩)
    [Event.readAll, Event.decode bytes,
     Event.infof 1 "received request UID: %q, kind: %s" [.str req.uid, .gvk req.kind],
     Event.handle ⟨req⟩] tail rfl htail
  refine ⟨?_, ?_⟩
  · intro hsucc
    have hw := hok hsucc
    refine ⟨hw, ?_⟩
    unfold writtenUIDs
    rw [hw]
    simp [responseReview, huid]
  · intro err herr uid huidmem
    unfold writtenUIDs at huidmem
    rcases hfail err herr with hw | ⟨e, hw⟩
    · rw [hw] at huidmem
      simp at huidmem
    · rw [hw] at huidmem
      simpa [responseReview, Errored] using huidmem

/-- Witness of C4 amended: with the echoing decision function on a stream that
accepts the envelope, the one written UID is `abc`. -/
theorem ServeHTTP_uid_of_handle_witness :
    written (ServeHTTP sampleDecode okEncode allowHook 0 0
        { body := some ⟨.ok sampleBody⟩, contentType := "application/json" }).trace
      = [{ typeMeta := { kind := "", apiVersion := "" }, request := none,
           response := some { uid := "abc", successful := true,
                              status := none, fields := [] } }] ∧
    writtenUIDs (ServeHTTP sampleDecode okEncode allowHook 0 0
        { body := some ⟨.ok sampleBody⟩, contentType := "application/json" }).trace = ["abc"] :=
  (ServeHTTP_uid_of_handle sampleDecode okEncode allowHook 0 0
    sampleBody sampleRequest rfl rfl).1 rfl

/-- C5, as stated, fails: with a readable body sent as `text/plain` on a stream
whose first encode fails, the one response written is the fallback with code
500 and the message of the encode error, which does not name the content type;
the response with code 400 is handed to the encoder and not written. -/
theorem ServeHTTP_contentType_counterexample :
    (ServeHTTP sampleDecode failOnceEncode allowHook 1 0
        { body := some ⟨.ok sampleBody⟩, contentType := "text/plain" }).trace
      = [Event.readAll,
         Event.errorf "unable to process a request with an unknown content type: %w"
           "contentType=text/plain, expected application/json",
         Event.encode
             { typeMeta := { kind := "", apiVersion := "" }, request := none,
               response := some { uid := "", successful := false,
                                  status := some { code := 400, message := "contentType=text/plain, expected application/json" },
                                  fields := [] } }
           (some "write: broken pipe"),
         Event.errorf "unable to encode the response: %w" "write: broken pipe",
         Event.encode
             { typeMeta := { kind := "", apiVersion := "" }, request := none,
               response := some { uid := "", successful := false,
                                  status := some { code := 500, message := "write: broken pipe" },
                                  fields := [] } } none,
         Event.infof 4 "wrote response UID: %q, successful: %t, response.status.code: %d, response.status.message: %s"
           [.str "", .bool false, .int 500, .str "write: broken pipe"],
         Event.close] ∧
    (ServeHTTP sampleDecode failOnceEncode allowHook 1 0
        { body := some ⟨.ok sampleBody⟩, contentType := "text/plain" }).outcome
      = Outcome.returned ∧
    written (ServeHTTP sampleDecode failOnceEncode allowHook 1 0
        { body := some ⟨.ok sampleBody⟩, contentType := "text/plain" }).trace
      = [
          { typeMeta := { kind := "", apiVersion := "" }, request := none,
            response := some { uid := "", successful := false,
                               status := some { code := 500, message := "write: broken pipe" },
                               fields := [] } }] := by
  refine ⟨by decide, by decide, by decide⟩

/-- C5, amended: with a readable body the deserializer is reached exactly when
the Content-Type value is the string `application/json`; for every other value
`ct` the deserializer is not called and the response handed to the encoder has
code 400 and the message `contentType=<ct>, expected application/json`, which
contains `ct`; that response is the one written, and the handler returns, when
its encode succeeds, and it is not written when its encode fails. -/
theorem ServeHTTP_contentType_check {σ : Type}
    (decode : String → Except String ExploreRequest)
    (encode : σ → ExploreReview → σ × Option String) (wh : Webhook)
    (fuel : Nat) (w : σ) (bytes ct : String) :
    (decodeCalls (ServeHTTP decode encode wh fuel w
        { body := some ⟨.ok bytes⟩, contentType := ct }).trace = 1
      ↔ ct = "application/json") ∧
    (ct ≠ "application/json" →
      decodeCalls (ServeHTTP decode encode wh fuel w
        { body := some ⟨.ok bytes⟩, contentType := ct }).trace = 0 ∧
      firstEncoded (ServeHTTP decode encode wh fuel w
        { body := some ⟨.ok bytes⟩, contentType := ct }).trace
        = some
            { typeMeta := { kind := "", apiVersion := "" }, request := none,
              response := some { uid := "", successful := false,
                                 status := some { code := 400, message := "contentType=" ++ ct ++ ", expected application/json" },
                                 fields := [] } } ∧
      ((encode w
          { typeMeta := { kind := "", apiVersion := "" }, request := none,
            response := some { uid := "", successful := false,
                               status := some { code := 400, message := "contentType=" ++ ct ++ ", expected application/json" },
                               fields := [] } }).2 = none →
        written (ServeHTTP decode encode wh fuel w
          { body := some ⟨.ok bytes⟩, contentType := ct }).trace
          = [
              { typeMeta := { kind := "", apiVersion := "" }, request := none,
                response := some { uid := "", successful := false,
                                   status := some { code := 400, message := "contentType=" ++ ct ++ ", expected application/json" },
                                   fields := [] } }] ∧
        (ServeHTTP decode encode wh fuel w
          { body := some ⟨.ok bytes⟩, contentType := ct }).outcome = Outcome.returned) ∧
      (∀ err, (encode w
          { typeMeta := { kind := "", apiVersion := "" }, request := none,
            response := some { uid := "", successful := false,
                               status := some { code := 400, message := "contentType=" ++ ct ++ ", expected application/json" },
                               fields := [] } }).2
          = some err →
        ∀ rv ∈ written (ServeHTTP decode encode wh fuel w
            { body := some ⟨.ok bytes⟩, contentType := ct }).trace,
          ∃ e, rv =
              { typeMeta := { kind := "", apiVersion := "" }, request := none,
                response := some { uid := "", successful := false,
                                   status := some { code := 500, message := e },
                                   fields := [] } }) ∧
      ∃ before after : String,
        "contentType=" ++ ct ++ ", expected application/json" = before ++ ct ++ after) := by
  have hone : ct = "application/json" →
      decodeCalls (ServeHTTP decode encode wh fuel w
        { body := some ⟨.ok bytes⟩, contentType := ct }).trace = 1 := by
    intro hct
    subst hct
    cases hd : decode bytes with
    | error err =>
      rw [ServeHTTP_decodeError decode encode wh fuel w bytes err hd]
      obtain ⟨res, rest, tail, h, hrest, htail⟩ :=
        deferred_tail encode fuel w (Errored 400 err)
          [Event.readAll, Event.decode bytes,
           Event.errorf "unable to decode the request: %w" err]
      rw [decodeCalls_of_shape _ _ rest tail _ res h hrest htail]
      rfl
    | ok req =>
      rw [ServeHTTP_dispatch decode encode wh fuel w bytes req hd]
      obtain ⟨res, rest, tail, h, hrest, htail⟩ :=
        deferred_tail encode fuel w (wh.Handle ⟨req⟩)
          [Event.readAll, Event.decode bytes,
           Event.infof 1 "received request UID: %q, kind: %s" [.str req.uid, .gvk req.kind],
           Event.handle ⟨req⟩]
      rw [decodeCalls_of_shape _ _ rest tail _ res h hrest htail]
      rfl
  have hzero : ct ≠ "application/json" →
      decodeCalls (ServeHTTP decode encode wh fuel w
        { body := some ⟨.ok bytes⟩, contentType := ct }).trace = 0 := by
    intro hct
    rw [ServeHTTP_contentType decode encode wh fuel w ct bytes hct]
    obtain ⟨res, rest, tail, h, hrest, htail⟩ :=
      deferred_tail encode fuel w
        (Errored 400 ("contentType=" ++ ct ++ ", expected application/json"))
        [Event.readAll,
         Event.errorf "unable to process a request with an unknown content type: %w"
           ("contentType=" ++ ct ++ ", expected application/json")]
    rw [decodeCalls_of_shape _ _ rest tail _ res h hrest htail]
    rfl
  refine ⟨⟨?_, hone⟩, ?_⟩
  · intro h1
    by_contra hct
    rw [hzero hct] at h1
    exact absurd h1 (by decide)
  · intro hct
    refine ⟨hzero hct, ?_, ?_, ?_, _, _, rfl⟩
    · rw [ServeHTTP_contentType decode encode wh fuel w ct bytes hct]
      obtain ⟨res, rest, tail, h, _⟩ :=
        deferred_tail encode fuel w
          (Errored 400 ("contentType=" ++ ct ++ ", expected application/json"))
          [Event.readAll,
           Event.errorf "unable to process a request with an unknown content type: %w"
             ("contentType=" ++ ct ++ ", expected application/json")]
      exact firstEncoded_of_shape _ _ _ _ res h rfl
    · intro hsucc
      rw [ServeHTTP_contentType decode encode wh fuel w ct bytes hct]
      obtain ⟨tail, ht, htail⟩ := after_defer_trace
        (writeResponse encode fuel w
          (Errored 400 ("contentType=" ++ ct ++ ", expected application/json")))
        [Event.readAll,
         Event.errorf "unable to process a request with an unknown content type: %w"
           ("contentType=" ++ ct ++ ", expected application/json")]
      obtain ⟨rest, _, _, _, _, hok, _⟩ := run_facts encode fuel w
        (Errored 400 ("contentType=" ++ ct ++ ", expected application/json"))
        [Event.readAll,
         Event.errorf "unable to process a request with an unknown content type: %w"
           ("contentType=" ++ ct ++ ", expected application/json")] tail rfl htail
      refine ⟨?_, ?_⟩
      · rw [ht]
        exact hok hsucc
      · rw [deferClose_outcome, after_outcome]
        exact writeResponse_errored_returned encode fuel w 400 _ hsucc
    · intro err herr rv hrv
      rw [ServeHTTP_contentType decode encode wh fuel w ct bytes hct] at hrv
      obtain ⟨tail, ht, htail⟩ := after_defer_trace
        (writeResponse encode fuel w
          (Errored 400 ("contentType=" ++ ct ++ ", expected application/json")))
        [Event.readAll,
         Event.errorf "unable to process a request with an unknown content type: %w"
           ("contentType=" ++ ct ++ ", expected application/json")]
      obtain ⟨rest, _, _, _, _, _, hfail⟩ := run_facts encode fuel w
        (Errored 400 ("contentType=" ++ ct ++ ", expected application/json"))
        [Event.readAll,
         Event.errorf "unable to process a request with an unknown content type: %w"
           ("contentType=" ++ ct ++ ", expected application/json")] tail rfl htail
      rw [ht] at hrv
      rcases hfail err herr with hw | ⟨e, hw⟩
      · rw [hw] at hrv
        simp at hrv
      · rw [hw] at hrv
        exact ⟨e, by simpa using hrv⟩

/-- Witness of C5 amended: a parameter suffix, another letter case and the
empty value of an absent header are each rejected without a deserializer call,
and on a stream that accepts the envelope the response with code 400 that
names `text/plain` is the one written. -/
theorem ServeHTTP_contentType_check_witness :
    decodeCalls (ServeHTTP sampleDecode okEncode allowHook 0 0
      { body := some ⟨.ok sampleBody⟩,
        contentType := "application/json; charset=utf-8" }).trace = 0 ∧
    decodeCalls (ServeHTTP sampleDecode okEncode allowHook 0 0
      { body := some ⟨.ok sampleBody⟩, contentType := "Application/JSON" }).trace = 0 ∧
    decodeCalls (ServeHTTP sampleDecode okEncode allowHook 0 0
      { body := some ⟨.ok sampleBody⟩, contentType := "" }).trace = 0 ∧
    decodeCalls (ServeHTTP sampleDecode okEncode allowHook 0 0
      { body := some ⟨.ok sampleBody⟩, contentType := "application/json" }).trace = 1 ∧
    written (ServeHTTP sampleDecode okEncode allowHook 0 0
      { body := some ⟨.ok sampleBody⟩, contentType := "text/plain" }).trace
      = [
          { typeMeta := { kind := "", apiVersion := "" }, request := none,
            response := some { uid := "", successful := false,
                               status := some { code := 400, message := "contentType=" ++ "text/plain" ++ ", expected application/json" },
                               fields := [] } }] :=
  ⟨((ServeHTTP_contentType_check sampleDecode okEncode allowHook 0 0 sampleBody
      "application/json; charset=utf-8").2 (by decide)).1,
   ((ServeHTTP_contentType_check sampleDecode okEncode allowHook 0 0 sampleBody
      "Application/JSON").2 (by decide)).1,
   ((ServeHTTP_contentType_check sampleDecode okEncode allowHook 0 0 sampleBody
      "").2 (by decide)).1,
   (ServeHTTP_contentType_check sampleDecode okEncode allowHook 0 0 sampleBody
      "application/json").1.2 rfl,
   (((ServeHTTP_contentType_check sampleDecode okEncode allowHook 0 0 sampleBody
      "text/plain").2 (by decide)).2.2.1 rfl).1⟩

/-- C7 on the code: whenever a request decodes, the decision function returns
`successful = false` without a status object and the encode of that response
succeeds, the handler panics on `response.Status.Code` after the encode instead
of completing; the trace ends with the encode and the deferred close. -/
theorem ServeHTTP_panics_without_status {σ : Type}
    (decode : String → Except String ExploreRequest)
    (encode : σ → ExploreReview → σ × Option String) (wh : Webhook)
    (fuel : Nat) (w : σ) (bytes : String) (req : ExploreRequest)
    (hd : decode bytes = .ok req)
    (hs : (wh.Handle ⟨req⟩).exploreResponse.successful = false)
    (hn : (wh.Handle ⟨req⟩).exploreResponse.status = none)
    (he : (encode w
        { typeMeta := { kind := "", apiVersion := "" }, request := none,
          response := some (wh.Handle ⟨req⟩).exploreResponse }).2 = none) :
    (ServeHTTP decode encode wh fuel w
        { body := some ⟨.ok bytes⟩, contentType := "application/json" }).outcome
      = Outcome.panicked ∧
    (ServeHTTP decode encode wh fuel w
        { body := some ⟨.ok bytes⟩, contentType := "application/json" }).trace
      = [Event.readAll, Event.decode bytes,
         Event.infof 1 "received request UID: %q, kind: %s" [.str req.uid, .gvk req.kind],
         Event.handle ⟨req⟩,
         Event.encode
             { typeMeta := { kind := "", apiVersion := "" }, request := none,
               response := some (wh.Handle ⟨req⟩).exploreResponse } none,
         Event.close] := by
  have hw : encode w (responseReview (wh.Handle ⟨req⟩))
      = ((encode w (responseReview (wh.Handle ⟨req⟩))).1, none) := by
    rw [← he]
    rfl
  have hlog : ∀ w1 : σ, logWritten w1 (responseReview (wh.Handle ⟨req⟩))
      = { w := w1, trace := [Event.encode (responseReview (wh.Handle ⟨req⟩)) none],
          outcome := Outcome.panicked } := by
    intro w1
    simp [logWritten, responseReview, hs, hn]
  rw [ServeHTTP_dispatch decode encode wh fuel w bytes req hd, writeResponse,
    writeExploreResponse_ok encode fuel w _ _ hw, hlog]
  exact ⟨rfl, rfl⟩

/-- Witness of C7 on the sample collaborators: the request with UID `abc`,
answered `successful = false` without a status, is encoded and then the handler
panics. -/
theorem ServeHTTP_panics_without_status_witness :
    sampleDecode sampleBody = .ok sampleRequest ∧
    (bareDenyHook.Handle ⟨sampleRequest⟩).exploreResponse
      = { uid := "abc", successful := false, status := none, fields := [] } ∧
    (ServeHTTP sampleDecode okEncode bareDenyHook 0 0
        { body := some ⟨.ok sampleBody⟩, contentType := "application/json" }).outcome = Outcome.panicked ∧
    (ServeHTTP sampleDecode okEncode bareDenyHook 0 0
        { body := some ⟨.ok sampleBody⟩, contentType := "application/json" }).trace
      = [Event.readAll, Event.decode sampleBody,
         Event.infof 1 "received request UID: %q, kind: %s"
           [.str sampleRequest.uid, .gvk sampleRequest.kind],
         Event.handle ⟨sampleRequest⟩,
         Event.encode
             { typeMeta := { kind := "", apiVersion := "" }, request := none,
               response := some (bareDenyHook.Handle ⟨sampleRequest⟩).exploreResponse } none,
         Event.close] :=
  ⟨rfl, rfl,
   ServeHTTP_panics_without_status sampleDecode okEncode bareDenyHook 0 0
     sampleBody sampleRequest rfl rfl rfl rfl⟩

/-- C8: no path of the handler sets the transport status code: no event of a
run is a `WriteHeader` call, the status line of a run is never a code other
than 200, and it is 200 whenever the handler returns, whether the response is a
success, a failure of a decode stage or the fallback after an encode failure. -/
theorem ServeHTTP_transport_status {σ : Type}
    (decode : String → Except String ExploreRequest)
    (encode : σ → ExploreReview → σ × Option String) (wh : Webhook)
    (fuel : Nat) (w : σ) (r : HttpRequest) :
    (∀ code, Event.writeHeader code ∉ (ServeHTTP decode encode wh fuel w r).trace) ∧
    (∀ c, transportStatus (ServeHTTP decode encode wh fuel w r).trace
        (ServeHTTP decode encode wh fuel w r).outcome = some c → c = 200) ∧
    ((ServeHTTP decode encode wh fuel w r).outcome = Outcome.returned →
      transportStatus (ServeHTTP decode encode wh fuel w r).trace
        (ServeHTTP decode encode wh fuel w r).outcome = some 200) := by
  obtain ⟨pre, rv, res, rest, tail, h, hpre, hrest, htail, _⟩ :=
    ServeHTTP_trace_shape decode encode wh fuel w r
  have hall : ∀ e ∈ (ServeHTTP decode encode wh fuel w r).trace, isWriteHeader e = false := by
    intro e he
    rw [h] at he
    simp only [List.mem_append, List.mem_cons] at he
    rcases he with he | rfl | he | he
    · exact hpre e he
    · rfl
    · exact writer_not_writeHeader e (hrest e he)
    · rcases htail with rfl | rfl
      · simp at he
      · simp at he
        subst he
        rfl
  have hdef := headerStatus_default _ hall
  refine ⟨?_, ?_, ?_⟩
  · intro code hmem
    have := hall _ hmem
    simp [isWriteHeader] at this
  · intro c hc
    cases ho : (ServeHTTP decode encode wh fuel w r).outcome with
    | returned =>
      rw [ho] at hc
      simp only [transportStatus, hdef, Option.some.injEq] at hc
      exact hc.symm
    | panicked =>
      rw [ho] at hc
      simp [transportStatus] at hc
    | outOfFuel =>
      rw [ho] at hc
      simp [transportStatus] at hc
  · intro ho
    rw [ho]
    simp only [transportStatus, hdef]

/-- Witness of C8: a denied request and a request answered by the fallback
after three failed encodes both return under the transport status 200. -/
theorem ServeHTTP_transport_status_witness :
    transportStatus
      (ServeHTTP sampleDecode okEncode denyHook 0 0
          { body := some ⟨.ok sampleBody⟩, contentType := "application/json" }).trace
      (ServeHTTP sampleDecode okEncode denyHook 0 0
          { body := some ⟨.ok sampleBody⟩, contentType := "application/json" }).outcome = some 200 ∧
    transportStatus
      (ServeHTTP sampleDecode flakyEncode allowHook 3 0
        { body := some ⟨.ok sampleBody⟩, contentType := "text/plain" }).trace
      (ServeHTTP sampleDecode flakyEncode allowHook 3 0
        { body := some ⟨.ok sampleBody⟩, contentType := "text/plain" }).outcome
      = some 200 :=
  ⟨(ServeHTTP_transport_status sampleDecode okEncode denyHook 0 0
      { body := some ⟨.ok sampleBody⟩, contentType := "application/json" }).2.2 (by decide),
   (ServeHTTP_transport_status sampleDecode flakyEncode allowHook 3 0
      { body := some ⟨.ok sampleBody⟩, contentType := "text/plain" }).2.2 (by decide)⟩

/-- C9, as stated, fails: after a failed read of the body on a stream whose
first encode fails, the response written carries the encode error with code
500, not the error of the failed read, which is handed to the encoder and not
written. -/
theorem ServeHTTP_stage_order_counterexample :
    (ServeHTTP sampleDecode failOnceEncode allowHook 1 0
        { body := some ⟨.error "unexpected EOF"⟩, contentType := "application/json" }).trace
      = [Event.readAll,
         Event.errorf "unable to read the body from the incoming request: %w" "unexpected EOF",
         Event.encode
             { typeMeta := { kind := "", apiVersion := "" }, request := none,
               response := some { uid := "", successful := false,
                                  status := some { code := 400, message := "unexpected EOF" },
                                  fields := [] } }
           (some "write: broken pipe"),
         Event.errorf "unable to encode the response: %w" "write: broken pipe",
         Event.encode
             { typeMeta := { kind := "", apiVersion := "" }, request := none,
               response := some { uid := "", successful := false,
                                  status := some { code := 500, message := "write: broken pipe" },
                                  fields := [] } } none,
         Event.infof 4 "wrote response UID: %q, successful: %t, response.status.code: %d, response.status.message: %s"
           [.str "", .bool false, .int 500, .str "write: broken pipe"],
         Event.close] ∧
    written (ServeHTTP sampleDecode failOnceEncode allowHook 1 0
        { body := some ⟨.error "unexpected EOF"⟩, contentType := "application/json" }).trace
      = [
          { typeMeta := { kind := "", apiVersion := "" }, request := none,
            response := some { uid := "", successful := false,
                               status := some { code := 500, message := "write: broken pipe" },
                               fields := [] } }] := by
  refine ⟨by decide, by decide⟩

/-- C9, amended: the checks run in the order absent body, body read, content
type, decode, and the first failing check decides the error response handed to
the encoder, with no later stage attempted: an absent body is not read; after
a failed read, whatever the content type, nothing is decoded; with a wrong
content type, whatever the body decodes to, nothing is decoded; after a failed
decode nothing is dispatched; on success read, decode, dispatch and encode
happen in that order.  On each path the response handed to the encoder is the
one written when its encode succeeds. -/
theorem ServeHTTP_stage_order {σ : Type}
    (decode : String → Except String ExploreRequest)
    (encode : σ → ExploreReview → σ × Option String) (wh : Webhook)
    (fuel : Nat) (w : σ) :
    (∀ ct, ∃ rest,
      (ServeHTTP decode encode wh fuel w { body := none, contentType := ct }).trace
        = Event.errorf "bad request: %w" "request body is empty" ::
          Event.encode
              { typeMeta := { kind := "", apiVersion := "" }, request := none,
                response := some { uid := "", successful := false,
                                   status := some { code := 400, message := "request body is empty" },
                                   fields := [] } }
            (encode w
                { typeMeta := { kind := "", apiVersion := "" }, request := none,
                  response := some { uid := "", successful := false,
                                     status := some { code := 400, message := "request body is empty" },
                                     fields := [] } }).2 :: rest ∧
      Event.readAll ∉ rest ∧ decodeCalls rest = 0 ∧ handleCalls rest = 0 ∧
      ((encode w
          { typeMeta := { kind := "", apiVersion := "" }, request := none,
            response := some { uid := "", successful := false,
                               status := some { code := 400, message := "request body is empty" },
                               fields := [] } }).2 = none →
        written (ServeHTTP decode encode wh fuel w { body := none, contentType := ct }).trace
          = [
              { typeMeta := { kind := "", apiVersion := "" }, request := none,
                response := some { uid := "", successful := false,
                                   status := some { code := 400, message := "request body is empty" },
                                   fields := [] } }])) ∧
    (∀ err ct, ∃ rest,
      (ServeHTTP decode encode wh fuel w
          { body := some ⟨.error err⟩, contentType := ct }).trace
        = Event.readAll ::
          Event.errorf "unable to read the body from the incoming request: %w" err ::
          Event.encode
              { typeMeta := { kind := "", apiVersion := "" }, request := none,
                response := some { uid := "", successful := false,
                                   status := some { code := 400, message := err },
                                   fields := [] } }
            (encode w
                { typeMeta := { kind := "", apiVersion := "" }, request := none,
                  response := some { uid := "", successful := false,
                                     status := some { code := 400, message := err },
                                     fields := [] } }).2 :: rest ∧
      decodeCalls rest = 0 ∧ handleCalls rest = 0 ∧
      ((encode w
          { typeMeta := { kind := "", apiVersion := "" }, request := none,
            response := some { uid := "", successful := false,
                               status := some { code := 400, message := err },
                               fields := [] } }).2 = none →
        written (ServeHTTP decode encode wh fuel w
            { body := some ⟨.error err⟩, contentType := ct }).trace
          = [
              { typeMeta := { kind := "", apiVersion := "" }, request := none,
                response := some { uid := "", successful := false,
                                   status := some { code := 400, message := err },
                                   fields := [] } }])) ∧
    (∀ bytes ct, ct ≠ "application/json" → ∃ rest,
      (ServeHTTP decode encode wh fuel w
          { body := some ⟨.ok bytes⟩, contentType := ct }).trace
        = Event.readAll ::
          Event.errorf "unable to process a request with an unknown content type: %w"
            ("contentType=" ++ ct ++ ", expected application/json") ::
          Event.encode
              { typeMeta := { kind := "", apiVersion := "" }, request := none,
                response := some { uid := "", successful := false,
                                   status := some { code := 400, message := "contentType=" ++ ct ++ ", expected application/json" },
                                   fields := [] } }
            (encode w
                { typeMeta := { kind := "", apiVersion := "" }, request := none,
                  response := some { uid := "", successful := false,
                                     status := some { code := 400, message := "contentType=" ++ ct ++ ", expected application/json" },
                                     fields := [] } }).2 :: rest ∧
      decodeCalls rest = 0 ∧ handleCalls rest = 0 ∧
      ((encode w
          { typeMeta := { kind := "", apiVersion := "" }, request := none,
            response := some { uid := "", successful := false,
                               status := some { code := 400, message := "contentType=" ++ ct ++ ", expected application/json" },
                               fields := [] } }).2 = none →
        written (ServeHTTP decode encode wh fuel w
            { body := some ⟨.ok bytes⟩, contentType := ct }).trace
          = [
              { typeMeta := { kind := "", apiVersion := "" }, request := none,
                response := some { uid := "", successful := false,
                                   status := some { code := 400, message := "contentType=" ++ ct ++ ", expected application/json" },
                                   fields := [] } }])) ∧
    (∀ bytes err, decode bytes = .error err → ∃ rest,
      (ServeHTTP decode encode wh fuel w
          { body := some ⟨.ok bytes⟩, contentType := "application/json" }).trace
        = Event.readAll :: Event.decode bytes ::
          Event.errorf "unable to decode the request: %w" err ::
          Event.encode
              { typeMeta := { kind := "", apiVersion := "" }, request := none,
                response := some { uid := "", successful := false,
                                   status := some { code := 400, message := err },
                                   fields := [] } }
            (encode w
                { typeMeta := { kind := "", apiVersion := "" }, request := none,
                  response := some { uid := "", successful := false,
                                     status := some { code := 400, message := err },
                                     fields := [] } }).2 :: rest ∧
      decodeCalls rest = 0 ∧ handleCalls rest = 0 ∧
      ((encode w
          { typeMeta := { kind := "", apiVersion := "" }, request := none,
            response := some { uid := "", successful := false,
                               status := some { code := 400, message := err },
                               fields := [] } }).2 = none →
        written (ServeHTTP decode encode wh fuel w
            { body := some ⟨.ok bytes⟩, contentType := "application/json" }).trace
          = [
              { typeMeta := { kind := "", apiVersion := "" }, request := none,
                response := some { uid := "", successful := false,
                                   status := some { code := 400, message := err },
                                   fields := [] } }])) ∧
    (∀ bytes req, decode bytes = .ok req → ∃ rest,
      (ServeHTTP decode encode wh fuel w
          { body := some ⟨.ok bytes⟩, contentType := "application/json" }).trace
        = Event.readAll :: Event.decode bytes ::
          Event.infof 1 "received request UID: %q, kind: %s"
            [.str req.uid, .gvk req.kind] ::
          Event.handle ⟨req⟩ ::
          Event.encode
              { typeMeta := { kind := "", apiVersion := "" }, request := none,
                response := some (wh.Handle ⟨req⟩).exploreResponse }
            (encode w
                { typeMeta := { kind := "", apiVersion := "" }, request := none,
                  response := some (wh.Handle ⟨req⟩).exploreResponse }).2 :: rest ∧
      decodeCalls rest = 0 ∧ handleCalls rest = 0 ∧
      ((encode w
          { typeMeta := { kind := "", apiVersion := "" }, request := none,
            response := some (wh.Handle ⟨req⟩).exploreResponse }).2 = none →
        written (ServeHTTP decode encode wh fuel w
            { body := some ⟨.ok bytes⟩, contentType := "application/json" }).trace
          = [
              { typeMeta := { kind := "", apiVersion := "" }, request := none,
                response := some (wh.Handle ⟨req⟩).exploreResponse }])) := by
  refine ⟨?_, ?_, ?_, ?_, ?_⟩
  · intro ct
    rw [ServeHTTP_noBody, after_plain_trace]
    obtain ⟨rest, h, hd0, hh0, hr0, hok, _⟩ := run_facts encode fuel w
      (Errored 400 "request body is empty")
      [Event.errorf "bad request: %w" "request body is empty"] [] rfl (Or.inl rfl)
    exact ⟨rest, h, hr0, hd0, hh0, hok⟩
  · intro err ct
    rw [ServeHTTP_readError]
    obtain ⟨tail, ht, htail⟩ := after_defer_trace
      (writeResponse encode fuel w (Errored 400 err))
      [Event.readAll,
       Event.errorf "unable to read the body from the incoming request: %w" err]
    rw [ht]
    obtain ⟨rest, h, hd0, hh0, _, hok, _⟩ := run_facts encode fuel w (Errored 400 err)
      [Event.readAll,
       Event.errorf "unable to read the body from the incoming request: %w" err]
      tail rfl htail
    exact ⟨rest, h, hd0, hh0, hok⟩
  · intro bytes ct hct
    rw [ServeHTTP_contentType decode encode wh fuel w ct bytes hct]
    obtain ⟨tail, ht, htail⟩ := after_defer_trace
      (writeResponse encode fuel w (Errored 400 ("contentType=" ++ ct ++ ", expected application/json")))
      [Event.readAll,
       Event.errorf "unable to process a request with an unknown content type: %w" ("contentType=" ++ ct ++ ", expected application/json")]
    rw [ht]
    obtain ⟨rest, h, hd0, hh0, _, hok, _⟩ := run_facts encode fuel w (Errored 400 ("contentType=" ++ ct ++ ", expected application/json"))
      [Event.readAll,
       Event.errorf "unable to process a request with an unknown content type: %w" ("contentType=" ++ ct ++ ", expected application/json")]
      tail rfl htail
    exact ⟨rest, h, hd0, hh0, hok⟩
  · intro bytes err hd
    rw [ServeHTTP_decodeError decode encode wh fuel w bytes err hd]
    obtain ⟨tail, ht, htail⟩ := after_defer_trace
      (writeResponse encode fuel w (Errored 400 err))
      [Event.readAll, Event.decode bytes,
       Event.errorf "unable to decode the request: %w" err]
    rw [ht]
    obtain ⟨rest, h, hd0, hh0, _, hok, _⟩ := run_facts encode fuel w (Errored 400 err)
      [Event.readAll, Event.decode bytes,
       Event.errorf "unable to decode the request: %w" err] tail rfl htail
    exact ⟨rest, h, hd0, hh0, hok⟩
  · intro bytes req hd
    rw [ServeHTTP_dispatch decode encode wh fuel w bytes req hd]
    obtain ⟨tail, ht, htail⟩ := after_defer_trace
      (writeResponse encode fuel w (wh.Handle ⟨req⟩))
      [Event.readAll, Event.decode bytes,
       Event.infof 1 "received request UID: %q, kind: %s" [.str req.uid, .gvk req.kind],
       Event.handle ⟨req⟩]
    rw [ht]
    obtain ⟨rest, h, hd0, hh0, _, hok, _⟩ := run_facts encode fuel w (wh.Handle ⟨req⟩)
      [Event.readAll, Event.decode bytes,
       Event.infof 1 "received request UID: %q, kind: %s" [.str req.uid, .gvk req.kind],
       Event.handle ⟨req⟩] tail rfl htail
    exact ⟨rest, h, hd0, hh0, hok⟩

/-- Witness of C9 amended, on a stream that accepts every envelope: sent as
`text/plain`, the sample body (which decodes) and the string-kind body (which
does not) get the same content-type error written; the string-kind body sent
as `application/json` gets the decode error written; the sample body sent as
`application/json` gets the response of the decision function written. -/
theorem ServeHTTP_stage_order_witness :
    written (ServeHTTP sampleDecode okEncode allowHook 0 0
        { body := some ⟨.ok sampleBody⟩, contentType := "text/plain" }).trace
      = [
          { typeMeta := { kind := "", apiVersion := "" }, request := none,
            response := some { uid := "", successful := false,
                               status := some { code := 400, message := "contentType=" ++ "text/plain" ++ ", expected application/json" },
                               fields := [] } }] ∧
    written (ServeHTTP sampleDecode okEncode allowHook 0 0
        { body := some ⟨.ok stringKindBody⟩, contentType := "text/plain" }).trace
      = [
          { typeMeta := { kind := "", apiVersion := "" }, request := none,
            response := some { uid := "", successful := false,
                               status := some { code := 400, message := "contentType=" ++ "text/plain" ++ ", expected application/json" },
                               fields := [] } }] ∧
    written (ServeHTTP sampleDecode okEncode allowHook 0 0
        { body := some ⟨.ok stringKindBody⟩, contentType := "application/json" }).trace
      = [
          { typeMeta := { kind := "", apiVersion := "" }, request := none,
            response := some { uid := "", successful := false,
                               status := some { code := 400, message := "json: cannot unmarshal string into Go struct field .request.kind" },
                               fields := [] } }] ∧
    written (ServeHTTP sampleDecode okEncode allowHook 0 0
        { body := some ⟨.ok sampleBody⟩, contentType := "application/json" }).trace
      = [
          { typeMeta := { kind := "", apiVersion := "" }, request := none,
            response := some (allowHook.Handle ⟨sampleRequest⟩).exploreResponse }] := by
  obtain ⟨_, _, _, _, h1⟩ := (ServeHTTP_stage_order sampleDecode okEncode allowHook 0 0).2.2.1
    sampleBody "text/plain" (by decide)
  obtain ⟨_, _, _, _, h2⟩ := (ServeHTTP_stage_order sampleDecode okEncode allowHook 0 0).2.2.1
    stringKindBody "text/plain" (by decide)
  obtain ⟨_, _, _, _, h3⟩ := (ServeHTTP_stage_order sampleDecode okEncode allowHook 0 0).2.2.2.1
    stringKindBody "json: cannot unmarshal string into Go struct field .request.kind" rfl
  obtain ⟨_, _, _, _, h4⟩ := (ServeHTTP_stage_order sampleDecode okEncode allowHook 0 0).2.2.2.2
    sampleBody sampleRequest rfl
  exact ⟨h1 rfl, h2 rfl, h3 rfl, h4 rfl⟩

/-- C10 on the code: with a body present, on a stream where every encode
fails, the body is read and, however deep the fallback recursion is allowed to
go, the handler has not come back and the body has not been closed. -/
theorem ServeHTTP_body_never_closed (decode : String → Except String ExploreRequest)
    (wh : Webhook) (fuel w : Nat) (b : Body) (ct : String) :
    Event.readAll ∈
      (ServeHTTP decode brokenEncode wh fuel w { body := some b, contentType := ct }).trace ∧
    Event.close ∉
      (ServeHTTP decode brokenEncode wh fuel w { body := some b, contentType := ct }).trace ∧
    (ServeHTTP decode brokenEncode wh fuel w { body := some b, contentType := ct }).outcome
      = Outcome.outOfFuel := by
  have hout : (ServeHTTP decode brokenEncode wh fuel w
      { body := some b, contentType := ct }).outcome = Outcome.outOfFuel := by
    rcases ServeHTTP_paths decode brokenEncode wh fuel w { body := some b, contentType := ct }
      with ⟨hb, _⟩ | ⟨_, response, pre, hS, _⟩
    · simp at hb
    · rw [hS, deferClose_outcome, after_outcome, writeResponse]
      exact brokenEncode_run fuel w _
  refine ⟨?_, ?_, hout⟩
  · rcases ServeHTTP_paths decode brokenEncode wh fuel w { body := some b, contentType := ct }
      with ⟨hb, _⟩ | ⟨_, response, pre, hS, _⟩
    · simp at hb
    · obtain ⟨tail, ht, _⟩ := after_defer_trace (writeResponse brokenEncode fuel w response)
        (Event.readAll :: pre)
      rw [hS, ht]
      simp
  · exact ((ServeHTTP_body_closed_on_exit decode brokenEncode wh fuel w).1 b ct).2 hout

end Explorer
